import Mathlib

/-!
# Verification of the Orc target-independent compiler pipeline

Shallow embedding of `src/orc/orccompiler.c` (constants and data layout from
`orcprogram.h`, given in `src/unnamed/part_000`), together with proofs and
refutations of the specification claims about the validator, the
liveness/rename pass, the register allocators, the driver initialization,
the duplicate-temporary factory and the constant pool.

C `int` fields that can hold `-1` sentinels (`first_use`, `last_use`) are
modelled as `Int`; refcounts (`alloc_regs`) are `Int` since the C code can
decrement them below zero; register numbers, sizes and indices are `Nat`.
Register-state vectors and the variable table are modelled as total
functions from `Nat`, so the C out-of-bounds accesses (see the theorems on
`orc_compiler_dup_temporary`) are representable rather than truncated.
-/

namespace Orc

/-- From `orcprogram.h`: `#define ORC_N_REGS (32*4)`. -/
def ORC_N_REGS : Nat := 32 * 4

/-- From `orcprogram.h`: `#define ORC_N_VARIABLES 20`. -/
def ORC_N_VARIABLES : Nat := 20

/-- From `orcprogram.h`: `#define ORC_GP_REG_BASE 32`. -/
def ORC_GP_REG_BASE : Nat := 32

/-- From `orcprogram.h`: `#define ORC_VEC_REG_BASE 64`. -/
def ORC_VEC_REG_BASE : Nat := 64

/-- From `orcprogram.h`: `#define ORC_STATIC_OPCODE_N_SRC 4`. -/
def ORC_STATIC_OPCODE_N_SRC : Nat := 4

/-- From `orcprogram.h`: `#define ORC_STATIC_OPCODE_N_DEST 2`. -/
def ORC_STATIC_OPCODE_N_DEST : Nat := 2

/-- Position of `ORC_VAR_T1` in the variable-slot enum of `orcprogram.h`
(`D1..D4, S1..S8, C1..C8, P1..P8, T1..T8`): index 28. -/
def ORC_VAR_T1 : Nat := 28

/-- Variable kinds.  The header revision in `src/unnamed/part_000` lists
`TEMP, SRC, DEST, CONST, PARAM`; `orccompiler.c` additionally uses
`ORC_VAR_TYPE_ACCUMULATOR`, so that constructor is modelled from the spec
(spec §3 lists kind Accumulator). -/
inductive OrcVarType where
  | TEMP
  | SRC
  | DEST
  | CONST
  | PARAM
  | ACCUMULATOR
deriving DecidableEq, Repr

/-- Modelled from the spec: opcode flag bit for accumulator opcodes
(`ORC_STATIC_OPCODE_ACCUMULATOR`); the header defining the numeric value is
not in the sources, so an arbitrary distinct power of two is used. -/
def ORC_STATIC_OPCODE_ACCUMULATOR : Nat := 1

/-- Modelled from the spec: opcode flag bit for scalar opcodes
(`ORC_STATIC_OPCODE_SCALAR`). -/
def ORC_STATIC_OPCODE_SCALAR : Nat := 2

/-- `struct _OrcVariable`.  `name == NULL` is `none`.  Fields used by
`orccompiler.c` but missing from the older header revision in the sources
(`load_dest`, `mask_alloc`, `aligned_data`) are modelled from the spec
(§3, §4.4, §4.5 global pass). -/
structure OrcVariable where
  name : Option String := none
  size : Nat := 0
  vartype : OrcVarType := .TEMP
  used : Bool := false
  first_use : Int := 0
  last_use : Int := 0
  replaced : Bool := false
  replacement : Nat := 0
  alloc : Nat := 0
  load_dest : Bool := false
  ptr_register : Nat := 0
  ptr_offset : Nat := 0
  mask_alloc : Nat := 0
  aligned_data : Nat := 0
deriving Repr, DecidableEq

instance : Inhabited OrcVariable := ⟨{}⟩

/-- `struct _OrcStaticOpcode`: name, per-slot sizes (0 = slot unused) and
flags.  The `flags` field is used by `orccompiler.c`
(`opcode->flags & ORC_STATIC_OPCODE_SCALAR` and `..._ACCUMULATOR`) but is
absent from the older header revision in the sources, so it is modelled
from the spec (§3: "flags (Accumulator, Scalar, ...)").  The fixed C
arrays `dest_size[2]` / `src_size[4]` are modelled as total functions;
only indices below `ORC_STATIC_OPCODE_N_DEST` / `_N_SRC` are ever read. -/
structure OrcStaticOpcode where
  name : String := ""
  flags : Nat := 0
  dest_size : Nat → Nat := fun _ => 0
  src_size : Nat → Nat := fun _ => 0

/-- `struct _OrcInstruction`: opcode handle plus destination/source
variable-slot indices (fixed C arrays modelled as total functions). -/
structure OrcInstruction where
  opcode : OrcStaticOpcode := {}
  dest_args : Nat → Nat := fun _ => 0
  src_args : Nat → Nat := fun _ => 0

instance : Inhabited OrcInstruction := ⟨{}⟩

/-- `OrcCompileResult`.  The numeric values live in a header that is not in
the sources; modelled from the spec (§3 Result code: OK, emulate-only,
unknown-compile, unknown-parse).  `OK` is the zero / memset default. -/
inductive OrcCompileResult where
  | OK
  | UNKNOWN_EMULATE
  | UNKNOWN_COMPILE
  | UNKNOWN_PARSE
deriving DecidableEq, Repr

/-- `struct _OrcConstant`: one constant-pool entry (modelled from the spec
§3: "a constant pool keyed by 32-bit splatted value, each entry recording
`use_count` and a possibly-assigned register"; the struct itself is in a
header not present in the sources, its three fields are exactly the ones
`orc_compiler_get_constant` reads and writes). -/
structure OrcConstant where
  value : Nat := 0
  alloc_reg : Nat := 0
  use_count : Nat := 0
deriving DecidableEq, Repr

/-- `struct _OrcCompiler`, restricted to the fields the embedded functions
read or write.  Fields used by `orccompiler.c` but absent from the older
header revision (`n_dup_vars`, `result`, `need_mask_regs`,
`alloc_loop_counter`, `loop_counter`, `constants`, `tmpreg`) are modelled
from the spec (§3 Compiler context).  `log` models the diagnostic channel
of `ORC_COMPILER_ERROR` (spec §6 Error channel).  The target's
`data_register_offset` is inlined as a plain field since only that member
of the target is read by the register allocator. -/
structure OrcCompiler where
  insns : List OrcInstruction := []
  vars : Nat → OrcVariable := fun _ => {}
  n_temp_vars : Nat := 0
  n_dup_vars : Nat := 0
  error : Bool := false
  result : OrcCompileResult := .OK
  log : List String := []
  valid_regs : Nat → Nat := fun _ => 0
  save_regs : Nat → Nat := fun _ => 0
  used_regs : Nat → Nat := fun _ => 0
  alloc_regs : Nat → Int := fun _ => 0
  target_data_register_offset : Nat := 0
  need_mask_regs : Bool := false
  alloc_loop_counter : Bool := false
  loop_counter : Nat := 0
  constants : List OrcConstant := []
  tmpreg : Nat := 0

/-- Pointwise update of a `Nat`-indexed state vector (a C array write). -/
def updf {α : Type} (f : Nat → α) (i : Nat) (v : α) : Nat → α :=
  fun x => if x = i then v else f x

/-- `ORC_COMPILER_ERROR(compiler, ...)`: latch the error flag and record
the diagnostic. -/
def ORC_COMPILER_ERROR (c : OrcCompiler) (msg : String) : OrcCompiler :=
  { c with error := true, log := c.log ++ [msg] }

/-! ## Register allocation (`orc_compiler_allocate_register`) -/

/-- One scan of the 32-register window: the body of
`for(i=0;i<32;i++){ reg = offset + ((roff + i)&0x1f); if (pred) ... }`.
`i` is the current loop index, the second argument the remaining
iteration count; `&0x1f` is `% 32`. -/
def allocScan (p : Nat → Bool) (offset roff : Nat) : Nat → Nat → Option Nat
  | _, 0 => none
  | i, n + 1 =>
    let reg := offset + ((roff + i) % 32)
    if p reg then some reg else allocScan p offset roff (i + 1) n

/-- Predicate of the first (preferred) pass of
`orc_compiler_allocate_register`:
`valid_regs[reg] && !save_regs[reg] && alloc_regs[reg] == 0`. -/
def allocPref (c : OrcCompiler) (reg : Nat) : Bool :=
  c.valid_regs reg != 0 && c.save_regs reg == 0 && c.alloc_regs reg == 0

/-- Predicate of the second (fallback) pass:
`valid_regs[reg] && alloc_regs[reg] == 0`. -/
def allocFall (c : OrcCompiler) (reg : Nat) : Bool :=
  c.valid_regs reg != 0 && c.alloc_regs reg == 0

/-- Successful-allocation bookkeeping:
`alloc_regs[reg]++; used_regs[reg] = 1; return reg;`. -/
def allocGrant (c : OrcCompiler) (reg : Nat) : Nat × OrcCompiler :=
  (reg, { c with alloc_regs := updf c.alloc_regs reg (c.alloc_regs reg + 1),
                 used_regs := updf c.used_regs reg 1 })

/-- `orc_compiler_allocate_register` (orccompiler.c:69-115).  `roff` is 0
(the randomized variant is compiled out). -/
def orc_compiler_allocate_register (c : OrcCompiler) (data_reg : Bool) :
    Nat × OrcCompiler :=
  let offset := if data_reg then c.target_data_register_offset
                else ORC_GP_REG_BASE
  let roff := 0
  match allocScan (allocPref c) offset roff 0 32 with
  | some reg => allocGrant c reg
  | none =>
    match allocScan (allocFall c) offset roff 0 32 with
    | some reg => allocGrant c reg
    | none =>
      let c := ORC_COMPILER_ERROR c
        ("register overflow for " ++ (if data_reg then "vector" else "gp")
          ++ " reg")
      (0, { c with result := .UNKNOWN_COMPILE })

/-! ## Validator (`orc_compiler_check_sizes`, orccompiler.c:294-336) -/

/-- Dest-slot check of `check_sizes`: slot `j` yields the error message of
the `dest_size[j] != vars[dest_args[j]].size` violation (slots with
declared size 0 are skipped). -/
def checkSizesDestMsg (c : OrcCompiler) (insn : OrcInstruction) (j : Nat) :
    Option String :=
  if insn.opcode.dest_size j = 0 then none
  else if insn.opcode.dest_size j ≠ (c.vars (insn.dest_args j)).size then
    some ("size mismatch, opcode " ++ insn.opcode.name ++ " dest[" ++
      toString j ++ "] is " ++ toString (c.vars (insn.dest_args j)).size ++
      " should be " ++ toString (insn.opcode.dest_size j))
  else none

/-- Src-slot check of `check_sizes`: the size-mismatch test (excepting
Const/Param sources), then the Scalar-flag test for slots `j >= 1`. -/
def checkSizesSrcMsg (c : OrcCompiler) (insn : OrcInstruction) (j : Nat) :
    Option String :=
  if insn.opcode.src_size j = 0 then none
  else if insn.opcode.src_size j ≠ (c.vars (insn.src_args j)).size ∧
      (c.vars (insn.src_args j)).vartype ≠ .PARAM ∧
      (c.vars (insn.src_args j)).vartype ≠ .CONST then
    some ("size mismatch, opcode " ++ insn.opcode.name ++ " src[" ++
      toString j ++ "] is " ++ toString (c.vars (insn.src_args j)).size ++
      " should be " ++ toString (insn.opcode.src_size j))
  else if insn.opcode.flags &&& ORC_STATIC_OPCODE_SCALAR ≠ 0 ∧ 1 ≤ j ∧
      (c.vars (insn.src_args j)).vartype ≠ .PARAM ∧
      (c.vars (insn.src_args j)).vartype ≠ .CONST then
    some ("opcode " ++ insn.opcode.name ++ " requires const or param source")
  else none

/-- First violation of one instruction, in the order the C loops test:
dest slots 0..1 then src slots 0..3. -/
def checkSizesInsnMsg (c : OrcCompiler) (insn : OrcInstruction) :
    Option String :=
  ((List.range ORC_STATIC_OPCODE_N_DEST).findSome?
      (checkSizesDestMsg c insn)).orElse
    (fun _ => (List.range ORC_STATIC_OPCODE_N_SRC).findSome?
      (checkSizesSrcMsg c insn))

/-- Instruction scan of `check_sizes`: stop (latch error, set
`unknown_parse`, return) at the first violating instruction. -/
def checkSizesGo (c : OrcCompiler) : List OrcInstruction → OrcCompiler
  | [] => c
  | insn :: rest =>
    match checkSizesInsnMsg c insn with
    | some msg => { ORC_COMPILER_ERROR c msg with result := .UNKNOWN_PARSE }
    | none => checkSizesGo c rest

/-- `orc_compiler_check_sizes` (orccompiler.c:294-336). -/
def orc_compiler_check_sizes (c : OrcCompiler) : OrcCompiler :=
  checkSizesGo c c.insns

/-- All violation messages of a state, in scan order (a specification-side
reformulation used to state the first-violation theorem). -/
def checkSizesViolations (c : OrcCompiler) : List String :=
  c.insns.flatMap (fun insn =>
    (List.range ORC_STATIC_OPCODE_N_DEST).filterMap (checkSizesDestMsg c insn)
      ++ (List.range ORC_STATIC_OPCODE_N_SRC).filterMap (checkSizesSrcMsg c insn))

/-! ## Duplicate-temporary factory (`orc_compiler_dup_temporary`,
orccompiler.c:574-586) -/

/-- Slot chosen by `orc_compiler_dup_temporary`:
`ORC_VAR_T1 + compiler->n_temp_vars + compiler->n_dup_vars`. -/
def orc_compiler_dup_slot (c : OrcCompiler) : Nat :=
  ORC_VAR_T1 + c.n_temp_vars + c.n_dup_vars

/-- Write variable slot `i`: a C `compiler->vars[i] = v` store. -/
def setVar (c : OrcCompiler) (i : Nat) (v : OrcVariable) : OrcCompiler :=
  { c with vars := updf c.vars i v }

/-- Write instruction slot `j`: a store through the C `insn` pointer. -/
def setInsn (c : OrcCompiler) (j : Nat) (insn : OrcInstruction) :
    OrcCompiler :=
  { c with insns := c.insns.set j insn }

/-- `orc_compiler_dup_temporary`: append a Temp variable at the dup slot,
copy the donor's size, synthesize the name `"<donor>.dup<j>"`, increment
`n_dup_vars`, return the new slot index.  (In C a NULL donor name would
crash `strlen`; the model substitutes the empty string.) -/
def orc_compiler_dup_temporary (c : OrcCompiler) (var j : Nat) :
    Nat × OrcCompiler :=
  let i := orc_compiler_dup_slot c
  let v := { c.vars i with
               vartype := OrcVarType.TEMP,
               size := (c.vars var).size,
               name := some (((c.vars var).name).getD "" ++ ".dup" ++
                 toString j) }
  (i, { setVar c i v with n_dup_vars := c.n_dup_vars + 1 })

/-! ## Liveness and Temp renaming (`orc_compiler_rewrite_vars`,
orccompiler.c:358-455) -/

/-- Body of the src-slot loop of `rewrite_vars` for instruction `j`,
slot `k`. -/
def rewriteSrcSlot (c : OrcCompiler) (j k : Nat) : OrcCompiler :=
  match c.insns[j]? with
  | none => c
  | some insn =>
    if insn.opcode.src_size k = 0 then c
    else
      let var := insn.src_args k
      -- if (vars[var].vartype == ORC_VAR_TYPE_DEST) load_dest = TRUE
      let c :=
        if (c.vars var).vartype = .DEST then
          setVar c var ({ c.vars var with load_dest := true })
        else c
      -- resolve the rename link, rewriting the slot in place
      let actual := if (c.vars var).replaced then (c.vars var).replacement
                    else var
      let c :=
        if (c.vars var).replaced then
          setInsn c j ({ insn with src_args := updf insn.src_args k actual })
        else c
      -- use-before-def check and first_use
      let c :=
        if (c.vars var).used = false then
          let c :=
            if (c.vars var).vartype = .TEMP then
              { ORC_COMPILER_ERROR c "using uninitialized temp var" with
                  result := .UNKNOWN_PARSE }
            else c
          setVar c var ({ c.vars var with used := true, first_use := (j : Int) })
        else c
      setVar c actual ({ c.vars actual with last_use := (j : Int) })

/-- The operand-kind checks at the head of the dest-slot processing of
`rewrite_vars`: reject Src/Const/Param destinations and enforce the
Accumulator-flag equivalence.  Errors are latched and the pass
continues. -/
def destTypeChecks (c : OrcCompiler) (insn : OrcInstruction) (var : Nat) :
    OrcCompiler :=
  let c :=
    if (c.vars var).vartype = .SRC then
      { ORC_COMPILER_ERROR c "using src var as dest" with
          result := .UNKNOWN_PARSE }
    else c
  let c :=
    if (c.vars var).vartype = .CONST then
      { ORC_COMPILER_ERROR c "using const var as dest" with
          result := .UNKNOWN_PARSE }
    else c
  let c :=
    if (c.vars var).vartype = .PARAM then
      { ORC_COMPILER_ERROR c "using param var as dest" with
          result := .UNKNOWN_PARSE }
    else c
  if insn.opcode.flags &&& ORC_STATIC_OPCODE_ACCUMULATOR ≠ 0 then
    if (c.vars var).vartype ≠ .ACCUMULATOR then
      { ORC_COMPILER_ERROR c
          "accumulating opcode to non-accumulator dest" with
          result := .UNKNOWN_PARSE }
    else c
  else
    if (c.vars var).vartype = .ACCUMULATOR then
      { ORC_COMPILER_ERROR c
          "non-accumulating opcode to accumulator dest" with
          result := .UNKNOWN_PARSE }
    else c

/-- Body of the dest-slot loop of `rewrite_vars` for instruction `j`,
slot `k`. -/
def rewriteDestSlot (c : OrcCompiler) (j k : Nat) : OrcCompiler :=
  match c.insns[j]? with
  | none => c
  | some insn =>
    if insn.opcode.dest_size k = 0 then c
    else
      let var := insn.dest_args k
      let c := destTypeChecks c insn var
      -- resolve the rename link, rewriting the slot in place
      let actual := if (c.vars var).replaced then (c.vars var).replacement
                    else var
      let c :=
        if (c.vars var).replaced then
          setInsn c j ({ insn with dest_args := updf insn.dest_args k actual })
        else c
      if (c.vars var).used = false then
        let c := setVar c actual
          ({ c.vars actual with used := true, first_use := (j : Int) })
        setVar c actual ({ c.vars actual with last_use := (j : Int) })
      else
        if (c.vars var).vartype = .TEMP then
          -- subsequent definition of a Temp: materialize a duplicate
          let (actual, c) := orc_compiler_dup_temporary c var j
          let c := setVar c var
            ({ c.vars var with replaced := true, replacement := actual })
          let c :=
            match c.insns[j]? with
            | none => c
            | some insn2 =>
              setInsn c j
                ({ insn2 with dest_args := updf insn2.dest_args k actual })
          let c := setVar c actual
            ({ c.vars actual with used := true, first_use := (j : Int) })
          setVar c actual ({ c.vars actual with last_use := (j : Int) })
        else
          setVar c actual ({ c.vars actual with last_use := (j : Int) })

/-- Processing of one instruction by `rewrite_vars`: src slots 0..3, then
dest slots 0..1. -/
def rewriteInsn (c : OrcCompiler) (j : Nat) : OrcCompiler :=
  let c := (List.range ORC_STATIC_OPCODE_N_SRC).foldl
    (fun s k => rewriteSrcSlot s j k) c
  (List.range ORC_STATIC_OPCODE_N_DEST).foldl
    (fun s k => rewriteDestSlot s j k) c

/-- `orc_compiler_rewrite_vars` (orccompiler.c:358-455): walk the
instructions in program order. -/
def orc_compiler_rewrite_vars (c : OrcCompiler) : OrcCompiler :=
  (List.range c.insns.length).foldl rewriteInsn c

/-! ## Global register allocation (`orc_compiler_global_reg_alloc`,
orccompiler.c:457-513) -/

/-- One iteration of the variable loop of `global_reg_alloc` (the switch
on `var->vartype`).  The C `default:` arm is unreachable here because the
model's `OrcVarType` has exactly the six constructors the switch names. -/
def graStep (c : OrcCompiler) (i : Nat) : OrcCompiler :=
  let v := c.vars i
  if v.name = none then c
  else
    match v.vartype with
    | .CONST =>
      let (r, c) := orc_compiler_allocate_register c true
      setVar c i ({ c.vars i with first_use := -1, last_use := -1, alloc := r })
    | .PARAM =>
      let (r, c) := orc_compiler_allocate_register c true
      setVar c i ({ c.vars i with first_use := -1, last_use := -1, alloc := r })
    | .SRC =>
      let (r1, c) := orc_compiler_allocate_register c false
      let c := setVar c i ({ c.vars i with ptr_register := r1 })
      if c.need_mask_regs then
        let (r2, c) := orc_compiler_allocate_register c true
        let c := setVar c i ({ c.vars i with mask_alloc := r2 })
        let (r3, c) := orc_compiler_allocate_register c false
        let c := setVar c i ({ c.vars i with ptr_offset := r3 })
        let (r4, c) := orc_compiler_allocate_register c true
        setVar c i ({ c.vars i with aligned_data := r4 })
      else c
    | .DEST =>
      let (r1, c) := orc_compiler_allocate_register c false
      setVar c i ({ c.vars i with ptr_register := r1 })
    | .ACCUMULATOR =>
      let (r, c) := orc_compiler_allocate_register c true
      setVar c i ({ c.vars i with first_use := -1, last_use := -1, alloc := r })
    | .TEMP => c

/-- The variable loop of `global_reg_alloc`, with the
`if (compiler->error) break;` after each iteration. -/
def graLoop (c : OrcCompiler) : List Nat → OrcCompiler
  | [] => c
  | i :: rest =>
    let c := graStep c i
    if c.error then c else graLoop c rest

/-- `orc_compiler_global_reg_alloc` (orccompiler.c:457-513): the variable
loop over all `ORC_N_VARIABLES` slots, then the loop-counter tail with its
historical error-forgiveness quirk. -/
def orc_compiler_global_reg_alloc (c : OrcCompiler) : OrcCompiler :=
  let c := graLoop c (List.range ORC_N_VARIABLES)
  if c.alloc_loop_counter ∧ c.error = false then
    let (r, c) := orc_compiler_allocate_register c false
    let c := { c with loop_counter := r }
    if r = 0 then { c with error := false, result := .OK } else c
  else c

/-! ## Local register allocation (`orc_compiler_rewrite_vars2`,
orccompiler.c:515-572) -/

/-- Chaining step of `rewrite_vars2` for instruction `j`: if the opcode is
non-accumulator with a single dest and `src_args[0]` dies here, reuse its
register for the dest, allocating a fresh vector register first when
`src_args[0]` is also born here, and bump the shared refcount. -/
def rv2Chain (c : OrcCompiler) (j : Nat) : OrcCompiler :=
  match c.insns[j]? with
  | none => c
  | some insn =>
    if insn.opcode.flags &&& ORC_STATIC_OPCODE_ACCUMULATOR = 0 ∧
        insn.opcode.dest_size 1 = 0 then
      let src1 := insn.src_args 0
      let dest := insn.dest_args 0
      if (c.vars src1).last_use = (j : Int) then
        let c :=
          if (c.vars src1).first_use = (j : Int) then
            let (k, c) := orc_compiler_allocate_register c true
            setVar c src1 ({ c.vars src1 with alloc := k })
          else c
        let a := (c.vars src1).alloc
        let c := { c with alloc_regs := updf c.alloc_regs a (c.alloc_regs a + 1) }
        setVar c dest ({ c.vars dest with alloc := a })
      else c
    else c

/-- Immediate-sentinel clearing step of `rewrite_vars2` (the live `else`
branch of the disabled `if (0)` block): if `vars[src_args[1]].alloc == 1`,
clear it to 0. -/
def rv2Sentinel (c : OrcCompiler) (j : Nat) : OrcCompiler :=
  match c.insns[j]? with
  | none => c
  | some insn =>
    let src2 := insn.src_args 1
    if (c.vars src2).alloc = 1 then
      setVar c src2 ({ c.vars src2 with alloc := 0 })
    else c

/-- Birth loop of `rewrite_vars2` at instruction `j`: every named variable
with `first_use == j` and no allocation yet gets a vector register.  The
loop bound is `ORC_N_VARIABLES` (= 20), exactly as in the C source. -/
def rv2Births (c : OrcCompiler) (j : Nat) : OrcCompiler :=
  (List.range ORC_N_VARIABLES).foldl
    (fun c i =>
      if (c.vars i).name = none then c
      else if (c.vars i).first_use = (j : Int) then
        if (c.vars i).alloc ≠ 0 then c
        else
          let (k, c) := orc_compiler_allocate_register c true
          setVar c i ({ c.vars i with alloc := k })
      else c) c

/-- Death loop of `rewrite_vars2` at instruction `j`: every named variable
with `last_use == j` releases one refcount on its register. -/
def rv2Deaths (c : OrcCompiler) (j : Nat) : OrcCompiler :=
  (List.range ORC_N_VARIABLES).foldl
    (fun c i =>
      if (c.vars i).name = none then c
      else if (c.vars i).last_use = (j : Int) then
        let a := (c.vars i).alloc
        { c with alloc_regs := updf c.alloc_regs a (c.alloc_regs a - 1) }
      else c) c

/-- One instruction of `rewrite_vars2`: chaining, sentinel clearing,
births, deaths — in source order. -/
def rv2Step (c : OrcCompiler) (j : Nat) : OrcCompiler :=
  rv2Deaths (rv2Births (rv2Sentinel (rv2Chain c j) j) j) j

/-- `orc_compiler_rewrite_vars2` (orccompiler.c:515-572). -/
def orc_compiler_rewrite_vars2 (c : OrcCompiler) : OrcCompiler :=
  (List.range c.insns.length).foldl rv2Step c

/-! ## Driver initialization (`orc_program_compile_full`,
orccompiler.c:174-242, up to the `compiler_init` hook) -/

/-- `struct _OrcProgram`, restricted to what the driver copies into the
compiler context. -/
structure OrcProgram where
  insns : List OrcInstruction := []
  vars : Nat → OrcVariable := fun _ => {}
  n_temp_vars : Nat := 0

/-- State of the compiler context in `orc_program_compile_full` at the
point just before `compiler->target->compiler_init (compiler)` is called
(orccompiler.c:183-242, on the path that reaches the hook): the context is
`malloc`ed and `memset` to zero, the instruction list and the first
`ORC_N_VARIABLES` variable slots are copied from the program,
`n_temp_vars` is copied, `n_dup_vars` zeroed, and then
`for(i=0;i<32;i++) valid_regs[i] = 1;`. -/
def orc_program_compile_full_setup (p : OrcProgram) : OrcCompiler :=
  let c : OrcCompiler := {}
  let c := { c with
               insns := p.insns,
               vars := fun i => if i < ORC_N_VARIABLES then p.vars i
                                else OrcVariable.mk none 0 .TEMP false 0 0
                                  false 0 0 false 0 0 0 0,
               n_temp_vars := p.n_temp_vars,
               n_dup_vars := 0 }
  { c with valid_regs := fun i => if i < 32 then 1 else c.valid_regs i }

/-! ## Constant pool (`orc_compiler_get_constant`,
orccompiler.c:639-672) -/

/-- The canonicalization block of `get_constant`: if `size < 4` splat the
low 16 bits into 32, first splatting the low 8 into 16 when `size < 2`. -/
def orc_compiler_get_constant_canon (size value : Nat) : Nat :=
  if size < 4 then
    let value := if size < 2 then (value &&& 0xff) ||| ((value &&& 0xff) <<< 8)
                 else value
    (value &&& 0xffff) ||| ((value &&& 0xffff) <<< 16)
  else value

/-- Pool index referenced by `get_constant`: linear search for the
canonicalized value; on miss the append position `n_constants`. -/
def orc_compiler_get_constant_index (c : OrcCompiler) (size value : Nat) :
    Nat :=
  let value := orc_compiler_get_constant_canon size value
  match c.constants.findIdx? (fun cst => cst.value == value) with
  | some i => i
  | none => c.constants.length

/-- `orc_compiler_get_constant` (orccompiler.c:639-672): canonicalize,
search the pool (appending `{value, 0, 0}` on miss), increment
`use_count`, and return the entry's register if assigned, else the scratch
register.  The `load_constant` target hook only emits code, which is
outside this model. -/
def orc_compiler_get_constant (c : OrcCompiler) (size value : Nat) :
    Nat × OrcCompiler :=
  let value := orc_compiler_get_constant_canon size value
  let i := match c.constants.findIdx? (fun cst => cst.value == value) with
           | some i => i
           | none => c.constants.length
  let pool := if c.constants.findIdx? (fun cst => cst.value == value)
                 = none then
                c.constants ++ [{ value := value, alloc_reg := 0,
                                  use_count := 0 }]
              else c.constants
  let entry := pool.getD i {}
  let pool := pool.set i ({ entry with use_count := entry.use_count + 1 })
  let c := { c with constants := pool }
  if (pool.getD i { : OrcConstant }).alloc_reg ≠ 0 then
    ((pool.getD i { : OrcConstant }).alloc_reg, c)
  else
    (c.tmpreg, c)

/-- splat8, as the spec's law states it: replicate the low byte of `v`
into all four bytes of a 32-bit value. -/
def splat8 (v : Nat) : Nat :=
  (v &&& 0xff) * 0x01010101

/-! ## Occurrence analysis for the liveness pass

Definitions used to state and prove the facts about re-running
`rewrite_vars`: the operand slots of an instruction, occurrence of a
variable slot in an instruction, and the last occurrence of a variable
before a given instruction index. -/

/-- The six operand slots of an instruction in the order the liveness
pass visits them (src 0..3 then dest 0..1), each as a
(declared size, variable slot) pair. -/
def insnSlots (insn : OrcInstruction) : List (Nat × Nat) :=
  [(insn.opcode.src_size 0, insn.src_args 0),
   (insn.opcode.src_size 1, insn.src_args 1),
   (insn.opcode.src_size 2, insn.src_args 2),
   (insn.opcode.src_size 3, insn.src_args 3),
   (insn.opcode.dest_size 0, insn.dest_args 0),
   (insn.opcode.dest_size 1, insn.dest_args 1)]

/-- Does variable slot `a` occur in a slot of non-zero declared size of
`insn`? -/
def occursIn (insn : OrcInstruction) (a : Nat) : Bool :=
  (insnSlots insn).any (fun sl => sl.1 != 0 && sl.2 == a)

/-- The effect of one visited slot on the variable table during a re-run
of the liveness pass on a fully-renamed state: slots of zero size change
nothing, the others stamp `last_use := j` on their variable. -/
def slotLayer (j : Nat) (V : Nat → OrcVariable) (sl : Nat × Nat) :
    Nat → OrcVariable :=
  if sl.1 = 0 then V
  else updf V sl.2 ({ V sl.2 with last_use := (j : Int) })

/-- The (size, slot) pair of src slot `k` of instruction `j`. -/
def srcSlotOf (insns : List OrcInstruction) (j k : Nat) : Nat × Nat :=
  ((insns.getD j {}).opcode.src_size k, (insns.getD j {}).src_args k)

/-- The (size, slot) pair of dest slot `k` of instruction `j`. -/
def destSlotOf (insns : List OrcInstruction) (j k : Nat) : Nat × Nat :=
  ((insns.getD j {}).opcode.dest_size k, (insns.getD j {}).dest_args k)

/-- The greatest instruction index below `p` whose instruction mentions
variable slot `a` in a slot of non-zero declared size. -/
def lastOccBefore (insns : List OrcInstruction) (a : Nat) (p : Nat) :
    Option Nat :=
  (List.range p).foldl
    (fun acc j => if occursIn (insns.getD j {}) a then some j else acc) none

/-- The state of a fully-renamed compiler after the liveness pass has
re-visited instructions `0..p-1`: every variable mentioned below `p`
carries the index of its last mention so far, everything else is
unchanged. -/
def lastUseState (c : OrcCompiler) (p : Nat) : OrcCompiler :=
  { c with vars := fun a =>
      match lastOccBefore c.insns a p with
      | some m => { c.vars a with last_use := (m : Int) }
      | none => c.vars a }

/-- Two variable tables that agree on everything but `last_use`. -/
def sameExceptLastUse (V W : Nat → OrcVariable) : Prop :=
  ∀ x, ∃ lu : Int, W x = { V x with last_use := lu }

/-! ## Refcount accounting for the local allocator

Definitions used to state the accounting facts about `rewrite_vars2`:
the chaining trigger, wellformedness of a variable's liveness interval,
and the number of variables holding a refcount on a register. -/

/-- The condition under which the chaining optimization of
`rewrite_vars2` fires at instruction `j`: non-accumulator opcode, single
destination, and `src_args[0]` dies at `j`. -/
def chainTrigger (c : OrcCompiler) (j : Nat) : Prop :=
  (c.insns.getD j ({} : OrcInstruction)).opcode.flags &&&
      ORC_STATIC_OPCODE_ACCUMULATOR = 0 ∧
  (c.insns.getD j ({} : OrcInstruction)).opcode.dest_size 1 = 0 ∧
  (c.vars ((c.insns.getD j ({} : OrcInstruction)).src_args 0)).last_use =
    (j : Int)

/-- A variable with a liveness interval inside the program and no
register assigned yet (the state `rewrite_vars` leaves Temp/Src/Dest
variables in). -/
def varInRange (v : OrcVariable) (n : Nat) : Prop :=
  0 ≤ v.first_use ∧ v.first_use ≤ v.last_use ∧ v.last_use < (n : Int) ∧
  v.alloc = 0

/-- A variable whose liveness fields never hit an instruction index (the
minus-one state of Const/Param/Accumulator variables after the global
pass). -/
def varInert (v : OrcVariable) : Prop :=
  v.first_use < 0 ∧ v.last_use < 0

/-- Number of scanned variable slots that are live across the boundary
before instruction `j` (born strictly before `j`, dying at `j` or later)
and hold register `r`.  Liveness fields are read from `c` (they are never
written by the pass), the register from `s`. -/
def countLiveAt (c s : OrcCompiler) (j r : Nat) : Nat :=
  (List.range ORC_N_VARIABLES).countP (fun i =>
    ((c.vars i).name).isSome && decide ((c.vars i).first_use < (j : Int))
      && decide ((j : Int) ≤ (c.vars i).last_use)
      && ((s.vars i).alloc == r))

/-- Number of scanned variable slots born at or before instruction `j`,
dying at `j` or later, holding register `r`. -/
def countBornAt (c s : OrcCompiler) (j r : Nat) : Nat :=
  (List.range ORC_N_VARIABLES).countP (fun i =>
    ((c.vars i).name).isSome && decide ((c.vars i).first_use ≤ (j : Int))
      && decide ((j : Int) ≤ (c.vars i).last_use)
      && ((s.vars i).alloc == r))

/-- Fields of the compiler state that `rewrite_vars2` never writes:
the instruction list, the pool offset, and every variable's name and
liveness interval. -/
def rv2Stable (c s : OrcCompiler) : Prop :=
  s.insns = c.insns ∧
  s.target_data_register_offset = c.target_data_register_offset ∧
  ∀ i : Nat, (s.vars i).name = (c.vars i).name ∧
    (s.vars i).first_use = (c.vars i).first_use ∧
    (s.vars i).last_use = (c.vars i).last_use

/-- Wellformedness of the input state of `rewrite_vars2`: the vector pool
offset is positive (at least 2, so a granted register can never be 0 or
the immediate sentinel 1), and every named scanned variable either has an
in-program liveness interval with no register yet, or is inert. -/
def rv2W (c : OrcCompiler) : Prop :=
  2 ≤ c.target_data_register_offset ∧
  ∀ i, i < ORC_N_VARIABLES → ((c.vars i).name).isSome = true →
    varInRange (c.vars i) c.insns.length ∨ varInert (c.vars i)

/-- The first source argument of instruction `j`. -/
def chainSrc (c : OrcCompiler) (j : Nat) : Nat :=
  (c.insns.getD j ({} : OrcInstruction)).src_args 0

/-- The first destination argument of instruction `j`. -/
def chainDest (c : OrcCompiler) (j : Nat) : Nat :=
  (c.insns.getD j ({} : OrcInstruction)).dest_args 0

/-- Wellformedness of the chaining operands at instruction `j`: whenever
the chaining trigger fires, its source and destination are distinct named
scanned variables and the destination is born exactly at `j`. -/
def rv2CH (c : OrcCompiler) (j : Nat) : Prop :=
  chainTrigger c j →
  chainSrc c j < ORC_N_VARIABLES ∧
  chainDest c j < ORC_N_VARIABLES ∧
  chainSrc c j ≠ chainDest c j ∧
  ((c.vars (chainSrc c j)).name).isSome = true ∧
  ((c.vars (chainDest c j)).name).isSome = true ∧
  (c.vars (chainDest c j)).first_use = (j : Int)

/-- Register-holding flags at the boundary before instruction `j`: every
named in-range scanned variable born before `j` holds a register (at
least 2), every other one holds none. -/
def rv2BornFlags (c s : OrcCompiler) (j : Nat) : Prop :=
  ∀ i, i < ORC_N_VARIABLES → ((c.vars i).name).isSome = true →
    varInRange (c.vars i) c.insns.length →
    ((c.vars i).first_use < (j : Int) → 2 ≤ (s.vars i).alloc) ∧
    ((j : Int) ≤ (c.vars i).first_use → (s.vars i).alloc = 0)

/-- The accounting invariant of `rewrite_vars2` at the boundary before
instruction `j`: stable fields unchanged, born flags correct, and every
refcount equal to its entry value plus the number of live holders. -/
def rv2Inv (c s : OrcCompiler) (j : Nat) : Prop :=
  rv2Stable c s ∧ rv2BornFlags c s j ∧
  ∀ r : Nat, s.alloc_regs r = c.alloc_regs r + (countLiveAt c s j r : Int)

/-- Register-holding flags after the chaining step of instruction `j`:
variables born at `j` may or may not hold a register yet. -/
def rv2PostChainFlags (c s : OrcCompiler) (j : Nat) : Prop :=
  ∀ i, i < ORC_N_VARIABLES → ((c.vars i).name).isSome = true →
    varInRange (c.vars i) c.insns.length →
    ((c.vars i).first_use < (j : Int) → 2 ≤ (s.vars i).alloc) ∧
    ((c.vars i).first_use = (j : Int) →
      (s.vars i).alloc = 0 ∨ 2 ≤ (s.vars i).alloc) ∧
    ((j : Int) < (c.vars i).first_use → (s.vars i).alloc = 0)

/-- The accounting invariant after the chaining and sentinel steps of
instruction `j`. -/
def rv2PostChain (c s : OrcCompiler) (j : Nat) : Prop :=
  rv2Stable c s ∧ rv2PostChainFlags c s j ∧
  (∀ r : Nat, 1 ≤ r →
    s.alloc_regs r = c.alloc_regs r + (countBornAt c s j r : Int)) ∧
  s.alloc_regs 0 = c.alloc_regs 0

/-- Register-holding flags after the birth loop of instruction `j`. -/
def rv2MidFlags (c s : OrcCompiler) (j : Nat) : Prop :=
  ∀ i, i < ORC_N_VARIABLES → ((c.vars i).name).isSome = true →
    varInRange (c.vars i) c.insns.length →
    ((c.vars i).first_use ≤ (j : Int) → 2 ≤ (s.vars i).alloc) ∧
    ((j : Int) < (c.vars i).first_use → (s.vars i).alloc = 0)

/-- The accounting invariant between the birth and death loops of
instruction `j`. -/
def rv2Mid (c s : OrcCompiler) (j : Nat) : Prop :=
  rv2Stable c s ∧ rv2MidFlags c s j ∧
  ∀ r : Nat, s.alloc_regs r = c.alloc_regs r + (countBornAt c s j r : Int)

/-- The birth-loop body of `rewrite_vars2`, as a standalone function (the
lambda folded by `rv2Births`). -/
def rv2BirthStep (j : Nat) (c : OrcCompiler) (i : Nat) : OrcCompiler :=
  if (c.vars i).name = none then c
  else if (c.vars i).first_use = (j : Int) then
    if (c.vars i).alloc ≠ 0 then c
    else
      let (k, c) := orc_compiler_allocate_register c true
      setVar c i ({ c.vars i with alloc := k })
  else c

/-- The death-loop body of `rewrite_vars2`, as a standalone function (the
lambda folded by `rv2Deaths`). -/
def rv2DeathStep (j : Nat) (c : OrcCompiler) (i : Nat) : OrcCompiler :=
  if (c.vars i).name = none then c
  else if (c.vars i).last_use = (j : Int) then
    let a := (c.vars i).alloc
    { c with alloc_regs := updf c.alloc_regs a (c.alloc_regs a - 1) }
  else c

/-! ## Concrete example states -/

/-- A `copyw`-shaped opcode: one dest of size 2, one src of size 2, no
flags. -/
def exCopyw : OrcStaticOpcode :=
  { name := "copyw", flags := 0,
    dest_size := fun k => if k = 0 then 2 else 0,
    src_size := fun k => if k = 0 then 2 else 0 }

/-- A dest-only opcode (one dest of size 2, no sources), used to exercise
the rename pass on Temp destinations. -/
def exStorew : OrcStaticOpcode :=
  { name := "storew", flags := 0,
    dest_size := fun k => if k = 0 then 2 else 0,
    src_size := fun _ => 0 }

/-- Post-`rewrite_vars` state of the two-instruction program
`copyw D1, S1; copyw D1, S2` (D1 at slot 0 written twice — the disabled
"writing dest more than once" check allows this): D1 lives over both
instructions, each source is born and dies at its own instruction.  The
vector pool (offset 64) is fully valid. -/
def exDoubleWrite : OrcCompiler :=
  { insns := [ { opcode := exCopyw, dest_args := fun _ => 0,
                 src_args := fun k => if k = 0 then 4 else 0 },
               { opcode := exCopyw, dest_args := fun _ => 0,
                 src_args := fun k => if k = 0 then 5 else 0 } ],
    vars := fun i =>
      if i = 0 then
        { name := some "d1", size := 2, vartype := .DEST, used := true,
          first_use := 0, last_use := 1 }
      else if i = 4 then
        { name := some "s1", size := 2, vartype := .SRC, used := true,
          first_use := 0, last_use := 0 }
      else if i = 5 then
        { name := some "s2", size := 2, vartype := .SRC, used := true,
          first_use := 1, last_use := 1 }
      else {},
    valid_regs := fun r => if 64 ≤ r ∧ r < 96 then 1 else 0,
    target_data_register_offset := 64 }

/-- A clean pre-`rewrite_vars` state writing the Temp at slot
`ORC_VAR_T1` twice (two dest-only instructions), with one program temp
declared. -/
def exTempTwice : OrcCompiler :=
  { insns := [ { opcode := exStorew, dest_args := fun _ => 28,
                 src_args := fun _ => 0 },
               { opcode := exStorew, dest_args := fun _ => 28,
                 src_args := fun _ => 0 } ],
    vars := fun i => if i = 28 then
              { name := some "t1", size := 2, vartype := .TEMP } else {},
    n_temp_vars := 1 }

/-- The single-instruction program `copyw D1, S1` as a post-`rewrite_vars`
state: the chaining optimization fires at instruction 0 and the
refcounting balances. -/
def exSingleCopy : OrcCompiler :=
  { insns := [ { opcode := exCopyw, dest_args := fun _ => 0,
                 src_args := fun k => if k = 0 then 4 else 0 } ],
    vars := fun i =>
      if i = 0 then
        { name := some "d1", size := 2, vartype := .DEST, used := true,
          first_use := 0, last_use := 0 }
      else if i = 4 then
        { name := some "s1", size := 2, vartype := .SRC, used := true,
          first_use := 0, last_use := 0 }
      else {},
    valid_regs := fun r => if 64 ≤ r ∧ r < 96 then 1 else 0,
    target_data_register_offset := 64 }

/-- A register-pool state with two valid GP registers, one of them
callee-saved: register 40 is valid but `save`, register 45 is valid and
scratch. -/
def exPool : OrcCompiler :=
  { valid_regs := fun r => if r = 40 ∨ r = 45 then 1 else 0,
    save_regs := fun r => if r = 40 then 1 else 0 }

/-- A state whose backend requested a loop counter but whose register
pools are entirely invalid, so the loop-counter allocation is exhausted. -/
def exLoopCounterExhausted : OrcCompiler :=
  { alloc_loop_counter := true }

/-- A mid-`rewrite_vars` state in which the Temp at slot `ORC_VAR_T1` is
already marked used and instruction 1 redefines it (the state of
`exTempTwice` right before the dest slot of instruction 1 is processed). -/
def exTempRedef : OrcCompiler :=
  { insns := [ { opcode := exStorew, dest_args := fun _ => 28,
                 src_args := fun _ => 0 },
               { opcode := exStorew, dest_args := fun _ => 28,
                 src_args := fun _ => 0 } ],
    vars := fun i => if i = 28 then
              { name := some "t1", size := 2, vartype := .TEMP,
                used := true, first_use := 0, last_use := 0 } else {},
    n_temp_vars := 1 }

/-- A state with one undersized constant variable in slot 12 (`C1`), used
to witness the validator's first-violation behavior: slot sizes disagree
but the variable is Const, and a Scalar-flagged opcode gets a Src in
`src[1]`. -/
def exScalarViol : OrcCompiler :=
  { insns := [ { opcode :=
                   { name := "mulw", flags := ORC_STATIC_OPCODE_SCALAR,
                     dest_size := fun k => if k = 0 then 2 else 0,
                     src_size := fun k => if k < 2 then 2 else 0 },
                 dest_args := fun _ => 0,
                 src_args := fun k => if k = 0 then 4 else if k = 1 then 5
                                      else 0 } ],
    vars := fun i =>
      if i = 0 then { name := some "d1", size := 2, vartype := .DEST }
      else if i = 4 then { name := some "s1", size := 2, vartype := .SRC }
      else if i = 5 then { name := some "s2", size := 2, vartype := .SRC }
      else {} }

end Orc

namespace Orc

/-! ## Theorems

Claim-by-claim verification.  Helper lemmas come first inside each
block. -/

set_option maxRecDepth 10000

/-! ### State-projection toolkit -/

@[simp] theorem updf_same {α : Type} (f : Nat → α) (i : Nat) (v : α) :
    updf f i v i = v := by simp [updf]

theorem updf_other {α : Type} (f : Nat → α) (i x : Nat) (v : α)
    (h : x ≠ i) : updf f i v x = f x := by simp [updf, h]

@[simp] theorem setVar_vars (c : OrcCompiler) (i : Nat) (v : OrcVariable) :
    (setVar c i v).vars = updf c.vars i v := rfl

@[simp] theorem setVar_insns (c : OrcCompiler) (i : Nat) (v : OrcVariable) :
    (setVar c i v).insns = c.insns := rfl

@[simp] theorem setVar_n_temp_vars (c : OrcCompiler) (i : Nat)
    (v : OrcVariable) : (setVar c i v).n_temp_vars = c.n_temp_vars := rfl

@[simp] theorem setVar_n_dup_vars (c : OrcCompiler) (i : Nat)
    (v : OrcVariable) : (setVar c i v).n_dup_vars = c.n_dup_vars := rfl

@[simp] theorem setVar_error (c : OrcCompiler) (i : Nat) (v : OrcVariable) :
    (setVar c i v).error = c.error := rfl

@[simp] theorem setVar_result (c : OrcCompiler) (i : Nat)
    (v : OrcVariable) : (setVar c i v).result = c.result := rfl

@[simp] theorem setVar_log (c : OrcCompiler) (i : Nat) (v : OrcVariable) :
    (setVar c i v).log = c.log := rfl

@[simp] theorem setVar_alloc_regs (c : OrcCompiler) (i : Nat)
    (v : OrcVariable) : (setVar c i v).alloc_regs = c.alloc_regs := rfl

@[simp] theorem setVar_valid_regs (c : OrcCompiler) (i : Nat)
    (v : OrcVariable) : (setVar c i v).valid_regs = c.valid_regs := rfl

@[simp] theorem setVar_save_regs (c : OrcCompiler) (i : Nat)
    (v : OrcVariable) : (setVar c i v).save_regs = c.save_regs := rfl

@[simp] theorem setVar_used_regs (c : OrcCompiler) (i : Nat)
    (v : OrcVariable) : (setVar c i v).used_regs = c.used_regs := rfl

@[simp] theorem setVar_offset (c : OrcCompiler) (i : Nat)
    (v : OrcVariable) : (setVar c i v).target_data_register_offset =
      c.target_data_register_offset := rfl

@[simp] theorem setVar_loop_counter (c : OrcCompiler) (i : Nat)
    (v : OrcVariable) : (setVar c i v).loop_counter = c.loop_counter := rfl

@[simp] theorem setVar_alc (c : OrcCompiler) (i : Nat)
    (v : OrcVariable) : (setVar c i v).alloc_loop_counter =
      c.alloc_loop_counter := rfl

@[simp] theorem setVar_need_mask (c : OrcCompiler) (i : Nat)
    (v : OrcVariable) : (setVar c i v).need_mask_regs =
      c.need_mask_regs := rfl

@[simp] theorem setInsn_vars (c : OrcCompiler) (j : Nat)
    (insn : OrcInstruction) : (setInsn c j insn).vars = c.vars := rfl

@[simp] theorem setInsn_insns (c : OrcCompiler) (j : Nat)
    (insn : OrcInstruction) :
    (setInsn c j insn).insns = c.insns.set j insn := rfl

@[simp] theorem setInsn_n_temp_vars (c : OrcCompiler) (j : Nat)
    (insn : OrcInstruction) :
    (setInsn c j insn).n_temp_vars = c.n_temp_vars := rfl

@[simp] theorem setInsn_n_dup_vars (c : OrcCompiler) (j : Nat)
    (insn : OrcInstruction) :
    (setInsn c j insn).n_dup_vars = c.n_dup_vars := rfl

@[simp] theorem setInsn_error (c : OrcCompiler) (j : Nat)
    (insn : OrcInstruction) : (setInsn c j insn).error = c.error := rfl

@[simp] theorem setInsn_result (c : OrcCompiler) (j : Nat)
    (insn : OrcInstruction) : (setInsn c j insn).result = c.result := rfl

@[simp] theorem setInsn_log (c : OrcCompiler) (j : Nat)
    (insn : OrcInstruction) : (setInsn c j insn).log = c.log := rfl

@[simp] theorem setInsn_alloc_regs (c : OrcCompiler) (j : Nat)
    (insn : OrcInstruction) :
    (setInsn c j insn).alloc_regs = c.alloc_regs := rfl

@[simp] theorem dup_temporary_fst (c : OrcCompiler) (var j : Nat) :
    (orc_compiler_dup_temporary c var j).1 = orc_compiler_dup_slot c := rfl

theorem dup_temporary_snd (c : OrcCompiler) (var j : Nat) :
    (orc_compiler_dup_temporary c var j).2 =
      { setVar c (orc_compiler_dup_slot c)
          ({ c.vars (orc_compiler_dup_slot c) with
               vartype := OrcVarType.TEMP,
               size := (c.vars var).size,
               name := some (((c.vars var).name).getD "" ++ ".dup" ++
                 toString j) }) with
          n_dup_vars := c.n_dup_vars + 1 } := rfl

theorem destTypeChecks_vars (c : OrcCompiler) (insn : OrcInstruction)
    (var : Nat) : (destTypeChecks c insn var).vars = c.vars := by
  unfold destTypeChecks ORC_COMPILER_ERROR
  dsimp only []
  repeat' split
  all_goals rfl

theorem destTypeChecks_insns (c : OrcCompiler) (insn : OrcInstruction)
    (var : Nat) : (destTypeChecks c insn var).insns = c.insns := by
  unfold destTypeChecks ORC_COMPILER_ERROR
  dsimp only []
  repeat' split
  all_goals rfl

theorem destTypeChecks_n_temp_vars (c : OrcCompiler)
    (insn : OrcInstruction) (var : Nat) :
    (destTypeChecks c insn var).n_temp_vars = c.n_temp_vars := by
  unfold destTypeChecks ORC_COMPILER_ERROR
  dsimp only []
  repeat' split
  all_goals rfl

theorem destTypeChecks_n_dup_vars (c : OrcCompiler)
    (insn : OrcInstruction) (var : Nat) :
    (destTypeChecks c insn var).n_dup_vars = c.n_dup_vars := by
  unfold destTypeChecks ORC_COMPILER_ERROR
  dsimp only []
  repeat' split
  all_goals rfl

theorem destTypeChecks_alloc_regs (c : OrcCompiler)
    (insn : OrcInstruction) (var : Nat) :
    (destTypeChecks c insn var).alloc_regs = c.alloc_regs := by
  unfold destTypeChecks ORC_COMPILER_ERROR
  dsimp only []
  repeat' split
  all_goals rfl

/-- The canonicalization identity behind the constant-pool law, decided
over the 256 possible low bytes. -/
theorem splatLowByteAux : ∀ b < 256, ((b ||| (b <<< 8)) &&& 65535) |||
    (((b ||| (b <<< 8)) &&& 65535) <<< 16) = b * 16843009 := by decide

/-- The low-byte canonicalization of `get_constant` for `size = 1` equals
`splat8`. -/
theorem canon_one_eq_splat8 (v : Nat) :
    orc_compiler_get_constant_canon 1 v = splat8 v := by
  have hb : v &&& 0xff < 256 :=
    Nat.lt_succ_of_le (Nat.and_le_right)
  simpa [orc_compiler_get_constant_canon, splat8] using
    splatLowByteAux (v &&& 0xff) hb

/-- C8: `get_constant(size=1, v)` and `get_constant(size=4, splat8 v)`
canonicalize to the same 32-bit value, hence search the pool for the same
value, reference the same entry index (found or appended), and leave
identical pool states and return values. -/
theorem c8_get_constant_splat8 (c : OrcCompiler) (v : Nat) :
    orc_compiler_get_constant_index c 1 v =
      orc_compiler_get_constant_index c 4 (splat8 v) ∧
    orc_compiler_get_constant c 1 v =
      orc_compiler_get_constant c 4 (splat8 v) := by
  have h4 : orc_compiler_get_constant_canon 4 (splat8 v) = splat8 v := by
    simp [orc_compiler_get_constant_canon]
  constructor
  · simp [orc_compiler_get_constant_index, canon_one_eq_splat8, h4]
  · simp [orc_compiler_get_constant, canon_one_eq_splat8, h4]

/-- C9: the slot returned by `orc_compiler_dup_temporary` is never a
valid index into the `ORC_N_VARIABLES`-element variable arrays: the slot
is `ORC_VAR_T1 + n_temp_vars + n_dup_vars >= 28`, while the arrays hold
`ORC_N_VARIABLES = 20` elements.  (The variable-slot enum reserves 36
names ending at `T8 = 35`, so the bound 20 contradicts the header's own
enum; every duplicate creation writes out of bounds.) -/
theorem c9_dup_slot_out_of_bounds (c : OrcCompiler) (var j : Nat) :
    ¬ ((orc_compiler_dup_temporary c var j).1 < ORC_N_VARIABLES) := by
  simp only [orc_compiler_dup_temporary, orc_compiler_dup_slot,
    ORC_VAR_T1, ORC_N_VARIABLES]
  omega

/-- C5 counterexample: the driver's register-marking loop
(`for(i=0;i<32;i++) valid_regs[i]=1;`) runs before `compiler_init`, but it
marks only registers 0..31 — *below* both pools.  The first GP-pool
register (`ORC_GP_REG_BASE = 32`) and the first vector-pool register
(`ORC_VEC_REG_BASE = 64`) are still invalid when `compiler_init` is
called, refuting "valid_regs[r] == 1 for every register r of both
pools". -/
theorem c5_counterexample :
    (orc_program_compile_full_setup ({} : OrcProgram)).valid_regs
        ORC_GP_REG_BASE ≠ 1 ∧
    (orc_program_compile_full_setup ({} : OrcProgram)).valid_regs
        ORC_VEC_REG_BASE ≠ 1 := by
  decide

/-- C5 amended: before `compiler_init` is called the driver has marked
exactly the registers 0..31 valid (all of which lie below
`ORC_GP_REG_BASE`); every register of the two allocation pools is still
marked invalid, and `compiler_init` must therefore *set*, not prune, the
valid set for the actual ISA. -/
theorem c5_valid_regs_window (p : OrcProgram) (r : Nat) :
    (orc_program_compile_full_setup p).valid_regs r =
      if r < 32 then 1 else 0 := by
  simp [orc_program_compile_full_setup]

/-- If the window scan starting at index `i` with `i + n ≤ 32` finds a
register, it is `offset + t` for the least satisfying `t` in the scanned
range. -/
theorem allocScan_some_char (p : Nat → Bool) (off : Nat) :
    ∀ n i r, i + n ≤ 32 → allocScan p off 0 i n = some r →
      ∃ t, i ≤ t ∧ t < i + n ∧ r = off + t ∧ p (off + t) = true ∧
        ∀ t', i ≤ t' → t' < t → p (off + t') = false := by
  intro n
  induction n with
  | zero => intro i r _ h; simp [allocScan] at h
  | succ m ih =>
    intro i r hle h
    have hi : (0 + i) % 32 = i := by omega
    rw [allocScan, hi] at h
    by_cases hp : p (off + i) = true
    · simp only [hp, if_true, Option.some.injEq] at h
      refine ⟨i, le_refl i, by omega, h.symm, hp, ?_⟩
      intro t' h1 h2; omega
    · simp only [hp, if_false] at h
      obtain ⟨t, ht1, ht2, ht3, ht4, ht5⟩ := ih (i + 1) r (by omega) h
      refine ⟨t, by omega, by omega, ht3, ht4, ?_⟩
      intro t' h1 h2
      rcases Nat.eq_or_lt_of_le h1 with h3 | h3
      · simpa [← h3] using eq_false_of_ne_true hp
      · exact ht5 t' h3 h2

/-- If the window scan fails, no register in the scanned range satisfies
the predicate. -/
theorem allocScan_none_char (p : Nat → Bool) (off : Nat) :
    ∀ n i, i + n ≤ 32 → allocScan p off 0 i n = none →
      ∀ t, i ≤ t → t < i + n → p (off + t) = false := by
  intro n
  induction n with
  | zero => intro i _ _ t h1 h2; omega
  | succ m ih =>
    intro i hle h t h1 h2
    have hi : (0 + i) % 32 = i := by omega
    rw [allocScan, hi] at h
    by_cases hp : p (off + i) = true
    · simp [hp] at h
    · simp only [hp, if_false] at h
      rcases Nat.eq_or_lt_of_le h1 with h3 | h3
      · simpa [← h3] using eq_false_of_ne_true hp
      · exact ih (i + 1) (by omega) h t h3 (by omega)

/-- Every register found by the window scan is at least `offset`. -/
theorem allocScan_some_ge (p : Nat → Bool) (off roff : Nat) :
    ∀ n i r, allocScan p off roff i n = some r → off ≤ r := by
  intro n
  induction n with
  | zero => intro i r h; simp [allocScan] at h
  | succ m ih =>
    intro i r h
    rw [allocScan] at h
    by_cases hp : p (off + (roff + i) % 32) = true
    · simp only [hp, if_true, Option.some.injEq] at h
      omega
    · simp only [hp, if_false] at h; exact ih (i + 1) r h

/-- A register satisfying the preferred-pass predicate also satisfies the
fallback-pass predicate. -/
theorem allocPref_implies_allocFall (c : OrcCompiler) (reg : Nat)
    (h : allocPref c reg = true) : allocFall c reg = true := by
  simp only [allocPref, Bool.and_eq_true] at h
  simp only [allocFall, Bool.and_eq_true]
  exact ⟨h.1.1, h.2⟩

/-- C3: `orc_compiler_allocate_register` scans its 32-register window
twice.  If some register in the window satisfies
`valid && !save && alloc==0`, the first such register is returned, with
its refcount incremented and its used mark set.  Otherwise, if some
register satisfies the save-ignoring predicate `valid && alloc==0`, the
first such register is returned the same way.  Otherwise the call records
the "register overflow" diagnostic naming the pool, sets
`result = unknown_compile`, and returns 0. -/
theorem c3_allocate_register (c : OrcCompiler) (data_reg : Bool) :
    ((∃ i, i < 32 ∧ allocPref c
        ((if data_reg then c.target_data_register_offset
          else ORC_GP_REG_BASE) + i) = true) →
      ∃ t, t < 32 ∧
        (orc_compiler_allocate_register c data_reg).1 =
          (if data_reg then c.target_data_register_offset
           else ORC_GP_REG_BASE) + t ∧
        allocPref c ((if data_reg then c.target_data_register_offset
          else ORC_GP_REG_BASE) + t) = true ∧
        (∀ t', t' < t → allocPref c
          ((if data_reg then c.target_data_register_offset
            else ORC_GP_REG_BASE) + t') = false) ∧
        (orc_compiler_allocate_register c data_reg).2 =
          (allocGrant c ((orc_compiler_allocate_register c data_reg).1)).2) ∧
    ((∀ i, i < 32 → allocPref c
        ((if data_reg then c.target_data_register_offset
          else ORC_GP_REG_BASE) + i) = false) →
      (∃ i, i < 32 ∧ allocFall c
        ((if data_reg then c.target_data_register_offset
          else ORC_GP_REG_BASE) + i) = true) →
      ∃ t, t < 32 ∧
        (orc_compiler_allocate_register c data_reg).1 =
          (if data_reg then c.target_data_register_offset
           else ORC_GP_REG_BASE) + t ∧
        allocFall c ((if data_reg then c.target_data_register_offset
          else ORC_GP_REG_BASE) + t) = true ∧
        (∀ t', t' < t → allocFall c
          ((if data_reg then c.target_data_register_offset
            else ORC_GP_REG_BASE) + t') = false) ∧
        (orc_compiler_allocate_register c data_reg).2 =
          (allocGrant c ((orc_compiler_allocate_register c data_reg).1)).2) ∧
    ((∀ i, i < 32 → allocFall c
        ((if data_reg then c.target_data_register_offset
          else ORC_GP_REG_BASE) + i) = false) →
      (orc_compiler_allocate_register c data_reg).1 = 0 ∧
      (orc_compiler_allocate_register c data_reg).2 =
        { c with error := true,
                 log := c.log ++ ["register overflow for " ++
                   (if data_reg then "vector" else "gp") ++ " reg"],
                 result := .UNKNOWN_COMPILE }) := by
  set off := if data_reg then c.target_data_register_offset
             else ORC_GP_REG_BASE with hoff
  have hunfold : orc_compiler_allocate_register c data_reg =
      match allocScan (allocPref c) off 0 0 32 with
      | some reg => allocGrant c reg
      | none =>
        match allocScan (allocFall c) off 0 0 32 with
        | some reg => allocGrant c reg
        | none =>
          (0, { c with error := true,
                       log := c.log ++ ["register overflow for " ++
                         (if data_reg then "vector" else "gp") ++ " reg"],
                       result := .UNKNOWN_COMPILE }) := by
    rw [orc_compiler_allocate_register]
    rfl
  rcases h1 : allocScan (allocPref c) off 0 0 32 with _ | reg
  · rcases h2 : allocScan (allocFall c) off 0 0 32 with _ | reg
    · -- both scans failed
      have hres : orc_compiler_allocate_register c data_reg =
          (0, { c with error := true,
                       log := c.log ++ ["register overflow for " ++
                         (if data_reg then "vector" else "gp") ++ " reg"],
                       result := .UNKNOWN_COMPILE }) := by
        rw [hunfold, h1, h2]
      refine ⟨?_, ?_, ?_⟩
      · rintro ⟨i, hi, hp⟩
        have := allocScan_none_char (allocPref c) off 32 0 (by omega) h1 i
          (by omega) (by omega)
        simp [this] at hp
      · rintro _ ⟨i, hi, hp⟩
        have := allocScan_none_char (allocFall c) off 32 0 (by omega) h2 i
          (by omega) (by omega)
        simp [this] at hp
      · intro _
        exact ⟨by rw [hres], by rw [hres]⟩
    · -- fallback scan succeeded
      have hres : orc_compiler_allocate_register c data_reg =
          allocGrant c reg := by rw [hunfold, h1, h2]
      obtain ⟨t, _, ht2, ht3, ht4, ht5⟩ :=
        allocScan_some_char (allocFall c) off 32 0 reg (by omega) h2
      refine ⟨?_, ?_, ?_⟩
      · rintro ⟨i, hi, hp⟩
        have := allocScan_none_char (allocPref c) off 32 0 (by omega) h1 i
          (by omega) (by omega)
        simp [this] at hp
      · intro _ _
        refine ⟨t, by omega, ?_, ht4, ?_, ?_⟩
        · rw [hres]; simpa [allocGrant] using ht3
        · intro t' h'; exact ht5 t' (by omega) h'
        · rw [hres]; simp [allocGrant]
      · intro hall
        have := hall t (by omega)
        simp [this] at ht4
  · -- preferred scan succeeded
    have hres : orc_compiler_allocate_register c data_reg =
        allocGrant c reg := by rw [hunfold, h1]
    obtain ⟨t, _, ht2, ht3, ht4, ht5⟩ :=
      allocScan_some_char (allocPref c) off 32 0 reg (by omega) h1
    refine ⟨?_, ?_, ?_⟩
    · intro _
      refine ⟨t, by omega, ?_, ht4, ?_, ?_⟩
      · rw [hres]; simpa [allocGrant] using ht3
      · intro t' h'; exact ht5 t' (by omega) h'
      · rw [hres]; simp [allocGrant]
    · intro hall _
      have := hall t (by omega)
      simp [this] at ht4
    · intro hall
      have := hall t (by omega)
      simp [allocPref_implies_allocFall c _ ht4] at this

/-- C3 witness: on the pool `exPool` (register 40 valid but callee-saved,
register 45 valid and scratch) a GP allocation returns the first preferred
register. -/
theorem c3_allocate_register_witness :
    ∃ t, t < 32 ∧
      (orc_compiler_allocate_register exPool false).1 = ORC_GP_REG_BASE + t ∧
      allocPref exPool (ORC_GP_REG_BASE + t) = true ∧
      (∀ t', t' < t → allocPref exPool (ORC_GP_REG_BASE + t') = false) ∧
      (orc_compiler_allocate_register exPool false).2 =
        (allocGrant exPool ((orc_compiler_allocate_register exPool false).1)).2
    := by
  have h := (c3_allocate_register exPool false).1
  simpa using h (by refine ⟨13, by omega, ?_⟩; decide)

/-- C10: provided the target's vector pool sits at or above
`ORC_GP_REG_BASE` (the header puts it at `ORC_VEC_REG_BASE = 64`), every
register returned by a successful `orc_compiler_allocate_register` call is
at least `ORC_GP_REG_BASE = 32`; 0 is returned only on failure (error
latched, `result = unknown_compile`); hence a successful register is never
the sentinel 1 and the sentinel-clearing step of `rewrite_vars2` leaves
any variable holding a genuinely allocated register untouched. -/
theorem c10_allocate_register_sentinel (c : OrcCompiler) (data_reg : Bool)
    (hoff : data_reg = true →
      ORC_GP_REG_BASE ≤ c.target_data_register_offset) :
    ((orc_compiler_allocate_register c data_reg).1 = 0 →
      (orc_compiler_allocate_register c data_reg).2.error = true ∧
      (orc_compiler_allocate_register c data_reg).2.result =.UNKNOWN_COMPILE) ∧
    ((orc_compiler_allocate_register c data_reg).1 ≠ 0 →
      ORC_GP_REG_BASE ≤ (orc_compiler_allocate_register c data_reg).1) ∧
    ((orc_compiler_allocate_register c data_reg).1 ≠ 0 →
      ∀ (c₂ : OrcCompiler) (j : Nat) (insn : OrcInstruction),
        c₂.insns[j]? = some insn →
        (c₂.vars (insn.src_args 1)).alloc =
          (orc_compiler_allocate_register c data_reg).1 →
        rv2Sentinel c₂ j = c₂) := by
  set off := if data_reg then c.target_data_register_offset
             else ORC_GP_REG_BASE with hoffdef
  have hoffge : (32 : Nat) ≤ off := by
    rw [hoffdef]
    cases data_reg with
    | false => simp [ORC_GP_REG_BASE]
    | true => simpa [ORC_GP_REG_BASE] using hoff rfl
  have hunfold : orc_compiler_allocate_register c data_reg =
      match allocScan (allocPref c) off 0 0 32 with
      | some reg => allocGrant c reg
      | none =>
        match allocScan (allocFall c) off 0 0 32 with
        | some reg => allocGrant c reg
        | none =>
          (0, { c with error := true,
                       log := c.log ++ ["register overflow for " ++
                         (if data_reg then "vector" else "gp") ++ " reg"],
                       result := .UNKNOWN_COMPILE }) := by
    rw [orc_compiler_allocate_register]
    rfl
  have hge : (orc_compiler_allocate_register c data_reg).1 = 0 ∨
      ORC_GP_REG_BASE ≤ (orc_compiler_allocate_register c data_reg).1 ∧
      (orc_compiler_allocate_register c data_reg).2.error = c.error := by
    rw [hunfold]
    rcases h1 : allocScan (allocPref c) off 0 0 32 with _ | reg
    · rcases h2 : allocScan (allocFall c) off 0 0 32 with _ | reg
      · exact Or.inl rfl
      · refine Or.inr ⟨?_, by simp [allocGrant]⟩
        have := allocScan_some_ge (allocFall c) off 0 32 0 reg h2
        simpa [allocGrant] using le_trans hoffge this
    · refine Or.inr ⟨?_, by simp [allocGrant]⟩
      have := allocScan_some_ge (allocPref c) off 0 32 0 reg h1
      simpa [allocGrant] using le_trans hoffge this
  have hfail : (orc_compiler_allocate_register c data_reg).1 = 0 →
      (orc_compiler_allocate_register c data_reg).2.error = true ∧
      (orc_compiler_allocate_register c data_reg).2.result =.UNKNOWN_COMPILE := by
    intro h0
    rw [hunfold]
    rcases h1 : allocScan (allocPref c) off 0 0 32 with _ | reg
    · rcases h2 : allocScan (allocFall c) off 0 0 32 with _ | reg
      · exact ⟨rfl, rfl⟩
      · exfalso
        rw [hunfold, h1, h2] at h0
        have := allocScan_some_ge (allocFall c) off 0 32 0 reg h2
        simp [allocGrant] at h0
        omega
    · exfalso
      rw [hunfold, h1] at h0
      have := allocScan_some_ge (allocPref c) off 0 32 0 reg h1
      simp [allocGrant] at h0
      omega
  refine ⟨hfail, ?_, ?_⟩
  · intro hne
    rcases hge with h | h
    · exact absurd h hne
    · exact h.1
  · intro hne c₂ j insn hj halloc
    have hr : ORC_GP_REG_BASE ≤ (orc_compiler_allocate_register c data_reg).1
      := by
      rcases hge with h | h
      · exact absurd h hne
      · exact h.1
    rw [rv2Sentinel, hj]
    have : ¬ (c₂.vars (insn.src_args 1)).alloc = 1 := by
      rw [halloc]
      have : (32 : Nat) ≤ (orc_compiler_allocate_register c data_reg).1 := hr
      omega
    simp [this]

/-- C10 witness: on `exPool` the GP allocation returns register 45, which
is at least 32 and survives the sentinel-clearing step. -/
theorem c10_allocate_register_sentinel_witness :
    ORC_GP_REG_BASE ≤ (orc_compiler_allocate_register exPool false).1 := by
  exact (c10_allocate_register_sentinel exPool false (by simp)).2.1
    (by decide)

/-- C1: when the dest-slot processing of the liveness/rename pass meets a
slot of non-zero declared size whose variable is a Temp already marked
used, it allocates a duplicate at slot
`ORC_VAR_T1 + n_temp_vars + n_dup_vars` carrying the donor's size and the
name `"<orig>.dup<j>"`, increments `n_dup_vars`, sets the original's
`replaced`/`replacement` link, rewrites the instruction's dest slot in
place to the new slot, and marks the new variable used with
`first_use = j` and `last_use = j`.  (The hypothesis that the donor slot
differs from the dup slot rules out the self-aliasing overwrite that the C
code would equally mangle.) -/
theorem c1_rewrite_vars_dup (c : OrcCompiler) (j k : Nat)
    (insn : OrcInstruction)
    (hj : c.insns[j]? = some insn)
    (hk : insn.opcode.dest_size k ≠ 0)
    (hT : (c.vars (insn.dest_args k)).vartype = .TEMP)
    (hU : (c.vars (insn.dest_args k)).used = true)
    (nm : String) (hnm : (c.vars (insn.dest_args k)).name = some nm)
    (hne : insn.dest_args k ≠ orc_compiler_dup_slot c) :
    (rewriteDestSlot c j k).n_dup_vars = c.n_dup_vars + 1 ∧
    ((rewriteDestSlot c j k).vars (orc_compiler_dup_slot c)).vartype =.TEMP ∧
    ((rewriteDestSlot c j k).vars (orc_compiler_dup_slot c)).size =
      (c.vars (insn.dest_args k)).size ∧
    ((rewriteDestSlot c j k).vars (orc_compiler_dup_slot c)).name =
      some (nm ++ ".dup" ++ toString j) ∧
    ((rewriteDestSlot c j k).vars (insn.dest_args k)).replaced = true ∧
    ((rewriteDestSlot c j k).vars (insn.dest_args k)).replacement =
      orc_compiler_dup_slot c ∧
    ((rewriteDestSlot c j k).insns[j]?).map (fun i2 => i2.dest_args k) =
      some (orc_compiler_dup_slot c) ∧
    ((rewriteDestSlot c j k).vars (orc_compiler_dup_slot c)).used = true ∧
    ((rewriteDestSlot c j k).vars (orc_compiler_dup_slot c)).first_use =
      (j : Int) ∧
    ((rewriteDestSlot c j k).vars (orc_compiler_dup_slot c)).last_use =
      (j : Int) := by
  have hjlen : j < c.insns.length := by
    by_contra h
    rw [List.getElem?_eq_none (by omega)] at hj
    cases hj
  rw [rewriteDestSlot, hj]
  simp only [if_neg hk]
  simp only [destTypeChecks_vars, destTypeChecks_insns,
    destTypeChecks_n_temp_vars, destTypeChecks_n_dup_vars]
  simp only [orc_compiler_dup_slot] at hne
  have hne2 : ORC_VAR_T1 + c.n_temp_vars + c.n_dup_vars ≠ insn.dest_args k
    := Ne.symm hne
  by_cases hrep : (c.vars (insn.dest_args k)).replaced = true
  · simp only [hrep, if_true, destTypeChecks_vars, destTypeChecks_insns,
      destTypeChecks_n_temp_vars, destTypeChecks_n_dup_vars, setInsn_vars,
      setVar_vars, setInsn_insns, setVar_insns, setInsn_n_temp_vars,
      setInsn_n_dup_vars, setVar_n_temp_vars, setVar_n_dup_vars, hU, hT,
      orc_compiler_dup_temporary, orc_compiler_dup_slot,
      Bool.true_eq_false, Bool.false_eq_true, if_false, if_true,
      List.length_set, hjlen,
      List.getElem?_set_self, List.set_set, updf, hne, hne2, hnm,
      Option.getD_some, Option.map_some', updf_same]
    simp
  · simp only [hrep, if_false, destTypeChecks_vars, destTypeChecks_insns,
      destTypeChecks_n_temp_vars, destTypeChecks_n_dup_vars, setInsn_vars,
      setVar_vars, setInsn_insns, setVar_insns, setInsn_n_temp_vars,
      setInsn_n_dup_vars, setVar_n_temp_vars, setVar_n_dup_vars, hU, hT,
      orc_compiler_dup_temporary, orc_compiler_dup_slot,
      Bool.true_eq_false, Bool.false_eq_true, if_false, if_true,
      List.length_set, hjlen,
      List.getElem?_set_self, List.set_set, updf, hne, hne2, hnm,
      Option.getD_some, Option.map_some', updf_same, hj]
    simp

/-- Witness of the out-of-bounds duplicate slot at the smallest input: a
zeroed compiler state yields dup slot 28 with a 20-element table. -/
theorem c9_dup_slot_out_of_bounds_witness :
    ¬ ((orc_compiler_dup_temporary ({} : OrcCompiler) 0 0).1 <
        ORC_N_VARIABLES) :=
  c9_dup_slot_out_of_bounds ({} : OrcCompiler) 0 0

/-- C1 witness: redefining the used Temp `t1` (slot 28) at instruction 1
of `exTempRedef` materializes the duplicate `t1.dup1` at slot 29. -/
theorem c1_rewrite_vars_dup_witness :
    (rewriteDestSlot exTempRedef 1 0).n_dup_vars =
      exTempRedef.n_dup_vars + 1 ∧
    ((rewriteDestSlot exTempRedef 1 0).vars
      (orc_compiler_dup_slot exTempRedef)).vartype = .TEMP ∧
    ((rewriteDestSlot exTempRedef 1 0).vars
        (orc_compiler_dup_slot exTempRedef)).size =
      (exTempRedef.vars 28).size ∧
    ((rewriteDestSlot exTempRedef 1 0).vars
        (orc_compiler_dup_slot exTempRedef)).name =
      some ("t1" ++ ".dup" ++ toString 1) ∧
    ((rewriteDestSlot exTempRedef 1 0).vars 28).replaced = true ∧
    ((rewriteDestSlot exTempRedef 1 0).vars 28).replacement =
      orc_compiler_dup_slot exTempRedef ∧
    ((rewriteDestSlot exTempRedef 1 0).insns[1]?).map
        (fun i2 => i2.dest_args 0) =
      some (orc_compiler_dup_slot exTempRedef) ∧
    ((rewriteDestSlot exTempRedef 1 0).vars
      (orc_compiler_dup_slot exTempRedef)).used = true ∧
    ((rewriteDestSlot exTempRedef 1 0).vars
        (orc_compiler_dup_slot exTempRedef)).first_use = ((1 : Nat) : Int) ∧
    ((rewriteDestSlot exTempRedef 1 0).vars
        (orc_compiler_dup_slot exTempRedef)).last_use = ((1 : Nat) : Int) :=
  c1_rewrite_vars_dup exTempRedef 1 0
    { opcode := exStorew, dest_args := fun _ => 28, src_args := fun _ => 0 }
    rfl (by decide) rfl rfl "t1" rfl (by decide)

/-- `findSome?` returns the head of `filterMap`. -/
theorem findSome?_eq_head?_filterMap {α β : Type} (f : α → Option β) :
    ∀ l : List α, l.findSome? f = (l.filterMap f).head? := by
  intro l
  induction l with
  | nil => rfl
  | cons a l ih =>
    rw [List.findSome?_cons, List.filterMap_cons]
    cases h : f a with
    | none => exact ih
    | some b => rfl

/-- The per-instruction scan of `check_sizes` returns the first violation
message of the instruction, in slot order. -/
theorem checkSizesInsnMsg_eq_head (c : OrcCompiler)
    (insn : OrcInstruction) :
    checkSizesInsnMsg c insn =
      ((List.range ORC_STATIC_OPCODE_N_DEST).filterMap
          (checkSizesDestMsg c insn) ++
        (List.range ORC_STATIC_OPCODE_N_SRC).filterMap
          (checkSizesSrcMsg c insn)).head? := by
  rw [checkSizesInsnMsg, List.head?_append,
    findSome?_eq_head?_filterMap, findSome?_eq_head?_filterMap]
  cases ((List.range ORC_STATIC_OPCODE_N_DEST).filterMap
      (checkSizesDestMsg c insn)).head? with
  | none => rfl
  | some m => rfl

/-- The instruction loop of `check_sizes` stops at the first violation of
the whole program, leaving the state untouched when none exists. -/
theorem checkSizesGo_eq_head (c : OrcCompiler) :
    ∀ l : List OrcInstruction,
      checkSizesGo c l =
        ((l.flatMap (fun insn =>
            (List.range ORC_STATIC_OPCODE_N_DEST).filterMap
                (checkSizesDestMsg c insn) ++
              (List.range ORC_STATIC_OPCODE_N_SRC).filterMap
                (checkSizesSrcMsg c insn))).head?).elim c
          (fun m => { c with error := true, result := .UNKNOWN_PARSE,
                             log := c.log ++ [m] }) := by
  intro l
  induction l with
  | nil => rfl
  | cons insn rest ih =>
    rw [checkSizesGo, List.flatMap_cons, List.head?_append,
      ← checkSizesInsnMsg_eq_head]
    cases h : checkSizesInsnMsg c insn with
    | none => simpa using ih
    | some m => rfl

/-- C2: `check_sizes` latches the error flag and sets
`result = unknown_parse` at the first violation — a dest slot of non-zero
declared size whose variable's size differs; a src slot of non-zero
declared size whose non-Const/Param variable's size differs; or, for a
Scalar-flagged opcode, a src slot with index at least 1 whose variable is
neither Const nor Param — recording that violation's message; and when no
violation exists it returns the state unchanged. -/
theorem c2_check_sizes_first_violation (c : OrcCompiler) :
    orc_compiler_check_sizes c =
      ((checkSizesViolations c).head?).elim c
        (fun m => { c with error := true, result := .UNKNOWN_PARSE,
                           log := c.log ++ [m] }) ∧
    (checkSizesViolations c = [] → orc_compiler_check_sizes c = c) := by
  constructor
  · rw [orc_compiler_check_sizes, checkSizesViolations]
    exact checkSizesGo_eq_head c c.insns
  · intro h
    rw [orc_compiler_check_sizes, checkSizesGo_eq_head c c.insns]
    rw [checkSizesViolations] at h
    rw [h]
    rfl

/-- C2 witness: on the empty program the validator finds no violation and
returns the state unchanged. -/
theorem c2_check_sizes_first_violation_witness :
    orc_compiler_check_sizes ({} : OrcCompiler) = ({} : OrcCompiler) :=
  (c2_check_sizes_first_violation ({} : OrcCompiler)).2 rfl

/-- `allocate_register` either leaves the error flag unchanged (a grant)
or fails, returning 0 with the error flag latched. -/
theorem allocate_register_error_cases (c : OrcCompiler) (d : Bool) :
    (orc_compiler_allocate_register c d).2.error = c.error ∨
    ((orc_compiler_allocate_register c d).1 = 0 ∧
      (orc_compiler_allocate_register c d).2.error = true) := by
  rw [orc_compiler_allocate_register]
  rcases allocScan (allocPref c)
      (if d then c.target_data_register_offset else ORC_GP_REG_BASE) 0 0 32
    with _ | reg
  · rcases allocScan (allocFall c)
        (if d then c.target_data_register_offset else ORC_GP_REG_BASE) 0 0 32
      with _ | reg
    · exact Or.inr ⟨rfl, rfl⟩
    · exact Or.inl rfl
  · exact Or.inl rfl

/-- C6: in `global_reg_alloc`, when the backend requested a loop counter
and the variable loop latched no error, one GP register is allocated and
stored in `loop_counter`; when that allocation returns 0 (exhaustion), the
error flag is cleared and the result forced to OK, so loop-counter
exhaustion alone never fails the compilation — in particular the pass
ends with `error = false` whenever it reaches the loop-counter tail. -/
theorem c6_loop_counter_forgiveness (c : OrcCompiler)
    (halc : (graLoop c (List.range ORC_N_VARIABLES)).alloc_loop_counter =
      true)
    (herr : (graLoop c (List.range ORC_N_VARIABLES)).error = false) :
    (orc_compiler_global_reg_alloc c).loop_counter =
      (orc_compiler_allocate_register
        (graLoop c (List.range ORC_N_VARIABLES)) false).1 ∧
    (orc_compiler_global_reg_alloc c).error = false ∧
    ((orc_compiler_allocate_register
        (graLoop c (List.range ORC_N_VARIABLES)) false).1 = 0 →
      (orc_compiler_global_reg_alloc c).result = .OK) := by
  have hcases := allocate_register_error_cases
    (graLoop c (List.range ORC_N_VARIABLES)) false
  rw [orc_compiler_global_reg_alloc]
  rw [halc, herr]
  simp only [eq_self_iff_true, and_true, true_and, if_true, ite_true]
  rcases hr : orc_compiler_allocate_register
      (graLoop c (List.range ORC_N_VARIABLES)) false with ⟨r, c2⟩
  rw [hr] at hcases
  simp only [hr]
  by_cases h0 : r = 0
  · subst h0
    simp
  · simp only [if_neg h0]
    refine ⟨by trivial, ?_, fun h => absurd h h0⟩
    rcases hcases with h | h
    · rw [herr] at h
      exact h
    · exact absurd h.1 h0

/-- C6 witness: with every register invalid and a requested loop counter,
the loop-counter allocation is exhausted, yet the pass ends with the
error cleared and `result = OK`. -/
theorem c6_loop_counter_forgiveness_witness :
    (orc_compiler_global_reg_alloc exLoopCounterExhausted).error = false ∧
    (orc_compiler_global_reg_alloc exLoopCounterExhausted).result =.OK := by
  have h := c6_loop_counter_forgiveness exLoopCounterExhausted
    (by decide) (by decide)
  exact ⟨h.2.1, h.2.2 (by decide)⟩

/-! ### Re-running the liveness pass (C7) -/

theorem updf_self {α : Type} (f : Nat → α) (i : Nat) :
    updf f i (f i) = f := by
  funext x
  by_cases h : x = i <;> simp [updf, h]

theorem setVar_self (s : OrcCompiler) (i : Nat) :
    setVar s i (s.vars i) = s := by
  rw [setVar, updf_self]

theorem set_load_dest_self (v : OrcVariable) (h : v.load_dest = true) :
    { v with load_dest := true } = v := by
  cases v
  simp only at h
  simp [h]

theorem sameExceptLastUse_refl (V : Nat → OrcVariable) :
    sameExceptLastUse V V := by
  intro x
  exact ⟨(V x).last_use, rfl⟩

theorem sameExceptLastUse_fields (V W : Nat → OrcVariable)
    (h : sameExceptLastUse V W) (x : Nat) :
    (W x).used = (V x).used ∧ (W x).replaced = (V x).replaced ∧
    (W x).vartype = (V x).vartype ∧ (W x).load_dest = (V x).load_dest ∧
    (W x).name = (V x).name ∧ (W x).size = (V x).size ∧
    (W x).first_use = (V x).first_use := by
  obtain ⟨lu, hx⟩ := h x
  rw [hx]
  exact ⟨rfl, rfl, rfl, rfl, rfl, rfl, rfl⟩

theorem sameExceptLastUse_slotLayer (V W : Nat → OrcVariable)
    (h : sameExceptLastUse V W) (j : Nat) (sl : Nat × Nat) :
    sameExceptLastUse V (slotLayer j W sl) := by
  intro x
  rw [slotLayer]
  by_cases h0 : sl.1 = 0
  · simp only [h0, if_true, ite_true]
    exact h x
  · simp only [h0, if_false, ite_false]
    by_cases hx : x = sl.2
    · obtain ⟨lu, hx2⟩ := h sl.2
      refine ⟨(j : Int), ?_⟩
      subst hx
      simp [updf, hx2]
    · rw [updf_other _ _ _ _ hx]
      exact h x

theorem slotLayer_foldl_apply (j : Nat) :
    ∀ (sls : List (Nat × Nat)) (V : Nat → OrcVariable) (x : Nat),
      (sls.foldl (slotLayer j) V) x =
        if sls.any (fun sl => sl.1 != 0 && sl.2 == x) then
          { V x with last_use := (j : Int) }
        else V x := by
  intro sls
  induction sls with
  | nil => intro V x; simp
  | cons sl rest ih =>
    intro V x
    rw [List.foldl_cons, List.any_cons, ih]
    by_cases h0 : sl.1 = 0
    · have hly : slotLayer j V sl = V := by rw [slotLayer, if_pos h0]
      rw [hly, h0]
      simp only [Bool.false_and, Bool.false_or]
      rfl
    · by_cases hx : sl.2 = x
      · have hly : slotLayer j V sl x = { V x with last_use := (j : Int) }
          := by
          rw [slotLayer, if_neg h0, ← hx, updf_same]
        have hcond : (sl.1 != 0 && sl.2 == x || rest.any
            fun sl => sl.1 != 0 && sl.2 == x) =
            (true || rest.any fun sl => sl.1 != 0 && sl.2 == x) := by
          rw [hx]
          simp [h0]
        rw [hly, hcond]
        by_cases hrest : (rest.any fun sl => sl.1 != 0 && sl.2 == x) = true
        · rw [hrest]
          simp
        · simp only [Bool.not_eq_true] at hrest
          rw [hrest]
          simp
      · have hly : slotLayer j V sl x = V x := by
          rw [slotLayer]
          by_cases h1 : (sl.1 = 0)
          · rw [if_pos h1]
          · rw [if_neg h1, updf_other _ _ _ _ (fun hh => hx hh.symm)]
        have hcond : (sl.1 != 0 && sl.2 == x || rest.any
            fun sl => sl.1 != 0 && sl.2 == x) =
            (rest.any fun sl => sl.1 != 0 && sl.2 == x) := by
          have hbx : (sl.2 == x) = false := by
            rw [beq_eq_false_iff_ne]
            exact hx
          rw [hbx]
          simp
        rw [hly, hcond]

theorem lastOccBefore_succ (insns : List OrcInstruction) (a p : Nat) :
    lastOccBefore insns a (p + 1) =
      if occursIn (insns.getD p ({} : OrcInstruction)) a then some p
      else lastOccBefore insns a p := by
  rw [lastOccBefore, lastOccBefore, List.range_succ, List.foldl_append,
    List.foldl_cons, List.foldl_nil]

theorem lastOccBefore_some (insns : List OrcInstruction) (a : Nat) :
    ∀ p m, lastOccBefore insns a p = some m →
      m < p ∧ occursIn (insns.getD m ({} : OrcInstruction)) a = true := by
  intro p
  induction p with
  | zero => intro m h; cases h
  | succ q ih =>
    intro m h
    rw [lastOccBefore_succ] at h
    by_cases hq : occursIn (insns.getD q ({} : OrcInstruction)) a = true
    · rw [if_pos hq] at h
      cases h
      exact ⟨Nat.lt_succ_self q, hq⟩
    · rw [if_neg hq] at h
      obtain ⟨h1, h2⟩ := ih m h
      exact ⟨Nat.lt_succ_of_lt h1, h2⟩

theorem lastUseState_insns (c : OrcCompiler) (p : Nat) :
    (lastUseState c p).insns = c.insns := rfl

theorem lastUseState_zero (c : OrcCompiler) : lastUseState c 0 = c := by
  rw [lastUseState]
  have h : (fun a => match lastOccBefore c.insns a 0 with
      | some m => { c.vars a with last_use := (m : Int) }
      | none => c.vars a) = c.vars := by
    funext a
    rfl
  rw [h]

theorem lastUseState_same (c : OrcCompiler) (p : Nat) :
    sameExceptLastUse c.vars (lastUseState c p).vars := by
  intro x
  rw [lastUseState]
  cases h : lastOccBefore c.insns x p with
  | none =>
    refine ⟨(c.vars x).last_use, ?_⟩
    simp only [h]
  | some m =>
    refine ⟨(m : Int), ?_⟩
    simp only [h]

theorem destTypeChecks_id (c : OrcCompiler) (insn : OrcInstruction)
    (var : Nat)
    (h1 : (c.vars var).vartype ≠ .SRC)
    (h2 : (c.vars var).vartype ≠ .CONST)
    (h3 : (c.vars var).vartype ≠ .PARAM)
    (h4 : insn.opcode.flags &&& ORC_STATIC_OPCODE_ACCUMULATOR ≠ 0 →
      (c.vars var).vartype = .ACCUMULATOR)
    (h5 : insn.opcode.flags &&& ORC_STATIC_OPCODE_ACCUMULATOR = 0 →
      (c.vars var).vartype ≠ .ACCUMULATOR) :
    destTypeChecks c insn var = c := by
  rw [destTypeChecks]
  simp only [if_neg h1, if_neg h2, if_neg h3]
  by_cases hacc : insn.opcode.flags &&& ORC_STATIC_OPCODE_ACCUMULATOR = 0
  · simp only [hacc, ne_eq, not_true_eq_false, if_false, ite_false,
      if_neg (h5 hacc)]
  · simp only [ne_eq, hacc, not_false_eq_true, if_true, ite_true,
      if_neg (not_not_intro (h4 hacc))]

theorem rewriteSrcSlot_eq (c s : OrcCompiler) (j k : Nat)
    (hins : s.insns = c.insns)
    (hvars : sameExceptLastUse c.vars s.vars)
    (hfact : ∀ insn : OrcInstruction, c.insns[j]? = some insn →
      insn.opcode.src_size k ≠ 0 →
      (c.vars (insn.src_args k)).used = true ∧
      (c.vars (insn.src_args k)).replaced = false ∧
      ((c.vars (insn.src_args k)).vartype = .DEST →
        (c.vars (insn.src_args k)).load_dest = true)) :
    rewriteSrcSlot s j k =
      { s with vars := slotLayer j s.vars (srcSlotOf c.insns j k) } := by
  rcases hj : c.insns[j]? with _ | insn
  · have hj2 : s.insns[j]? = none := by rw [hins]; exact hj
    have h1 : rewriteSrcSlot s j k = s := by
      rw [rewriteSrcSlot, hj2]
    have hg : srcSlotOf c.insns j k = (0, 0) := by
      rw [srcSlotOf, List.getD_eq_getElem?_getD, hj]
      rfl
    rw [h1, hg]
    rfl
  · have hj2 : s.insns[j]? = some insn := by rw [hins]; exact hj
    have hg : srcSlotOf c.insns j k =
        (insn.opcode.src_size k, insn.src_args k) := by
      rw [srcSlotOf, List.getD_eq_getElem?_getD, hj]
      rfl
    rw [rewriteSrcSlot, hj2, hg]
    dsimp only []
    by_cases hsz : insn.opcode.src_size k = 0
    · rw [if_pos hsz, slotLayer, if_pos hsz]
    · obtain ⟨hused, hrep, hld⟩ := hfact insn hj hsz
      obtain ⟨hU2, hR2, hT2, hL2, _, _, _⟩ :=
        sameExceptLastUse_fields c.vars s.vars hvars (insn.src_args k)
      rw [if_neg hsz]
      have hc1 : (if (s.vars (insn.src_args k)).vartype = .DEST then
          setVar s (insn.src_args k)
            ({ s.vars (insn.src_args k) with load_dest := true })
        else s) = s := by
        by_cases hd : (s.vars (insn.src_args k)).vartype = .DEST
        · rw [if_pos hd, set_load_dest_self, setVar_self]
          rw [hL2]
          exact hld (hT2 ▸ hd)
        · rw [if_neg hd]
      rw [hc1]
      have hc2 : ((s.vars (insn.src_args k)).replaced = true) = False := by
        rw [hR2, hrep]
        simp
      have hc3 : ((s.vars (insn.src_args k)).used = false) = False := by
        rw [hU2, hused]
        simp
      simp only [hc2, hc3, if_false, ite_false]
      rw [slotLayer, if_neg hsz]
      rfl

theorem rewriteDestSlot_eq (c s : OrcCompiler) (j k : Nat)
    (hins : s.insns = c.insns)
    (hvars : sameExceptLastUse c.vars s.vars)
    (hfact : ∀ insn : OrcInstruction, c.insns[j]? = some insn →
      insn.opcode.dest_size k ≠ 0 →
      (c.vars (insn.dest_args k)).used = true ∧
      (c.vars (insn.dest_args k)).replaced = false ∧
      (if insn.opcode.flags &&& ORC_STATIC_OPCODE_ACCUMULATOR ≠ 0 then
        (c.vars (insn.dest_args k)).vartype = .ACCUMULATOR
       else (c.vars (insn.dest_args k)).vartype = .DEST)) :
    rewriteDestSlot s j k =
      { s with vars := slotLayer j s.vars (destSlotOf c.insns j k) } := by
  rcases hj : c.insns[j]? with _ | insn
  · have hj2 : s.insns[j]? = none := by rw [hins]; exact hj
    have h1 : rewriteDestSlot s j k = s := by
      rw [rewriteDestSlot, hj2]
    have hg : destSlotOf c.insns j k = (0, 0) := by
      rw [destSlotOf, List.getD_eq_getElem?_getD, hj]
      rfl
    rw [h1, hg]
    rfl
  · have hj2 : s.insns[j]? = some insn := by rw [hins]; exact hj
    have hg : destSlotOf c.insns j k =
        (insn.opcode.dest_size k, insn.dest_args k) := by
      rw [destSlotOf, List.getD_eq_getElem?_getD, hj]
      rfl
    rw [rewriteDestSlot, hj2, hg]
    dsimp only []
    by_cases hsz : insn.opcode.dest_size k = 0
    · rw [if_pos hsz, slotLayer, if_pos hsz]
    · obtain ⟨hused, hrep, hvt⟩ := hfact insn hj hsz
      obtain ⟨hU2, hR2, hT2, _, _, _, _⟩ :=
        sameExceptLastUse_fields c.vars s.vars hvars (insn.dest_args k)
      rw [if_neg hsz]
      have hvt2 : (s.vars (insn.dest_args k)).vartype =
          (c.vars (insn.dest_args k)).vartype := hT2
      have hid : destTypeChecks s insn (insn.dest_args k) = s := by
        by_cases hacc : insn.opcode.flags &&& ORC_STATIC_OPCODE_ACCUMULATOR
            = 0
        · rw [if_neg (by simp [hacc])] at hvt
          refine destTypeChecks_id s insn (insn.dest_args k) ?_ ?_ ?_ ?_ ?_
          · rw [hvt2, hvt]; intro h; cases h
          · rw [hvt2, hvt]; intro h; cases h
          · rw [hvt2, hvt]; intro h; cases h
          · intro h; exact absurd hacc h
          · intro _; rw [hvt2, hvt]; intro h; cases h
        · rw [if_pos hacc] at hvt
          refine destTypeChecks_id s insn (insn.dest_args k) ?_ ?_ ?_ ?_ ?_
          · rw [hvt2, hvt]; intro h; cases h
          · rw [hvt2, hvt]; intro h; cases h
          · rw [hvt2, hvt]; intro h; cases h
          · intro _; rw [hvt2, hvt]
          · intro h; exact absurd h hacc
      rw [hid]
      have hc2 : ((s.vars (insn.dest_args k)).replaced = true) = False := by
        rw [hR2, hrep]
        simp
      have hc3 : ((s.vars (insn.dest_args k)).used = false) = False := by
        rw [hU2, hused]
        simp
      have hc4 : ((s.vars (insn.dest_args k)).vartype = OrcVarType.TEMP) =
          False := by
        by_cases hacc : insn.opcode.flags &&& ORC_STATIC_OPCODE_ACCUMULATOR
            = 0
        · rw [if_neg (by simp [hacc])] at hvt
          rw [hvt2, hvt]
          simp
        · rw [if_pos hacc] at hvt
          rw [hvt2, hvt]
          simp
      simp only [hc2, hc3, hc4, if_false, ite_false]
      rw [slotLayer, if_neg hsz]
      rfl

theorem sameExceptLastUse_foldl (V : Nat → OrcVariable) (j : Nat) :
    ∀ (sls : List (Nat × Nat)) (W : Nat → OrcVariable),
      sameExceptLastUse V W →
      sameExceptLastUse V (sls.foldl (slotLayer j) W) := by
  intro sls
  induction sls with
  | nil => intro W h; exact h
  | cons sl rest ih =>
    intro W h
    rw [List.foldl_cons]
    exact ih _ (sameExceptLastUse_slotLayer V W h j sl)

theorem rewriteSrc_foldl_eq (c : OrcCompiler) (j : Nat)
    (hfact : ∀ (k : Nat) (insn : OrcInstruction), k < 4 →
      c.insns[j]? = some insn →
      insn.opcode.src_size k ≠ 0 →
      (c.vars (insn.src_args k)).used = true ∧
      (c.vars (insn.src_args k)).replaced = false ∧
      ((c.vars (insn.src_args k)).vartype = .DEST →
        (c.vars (insn.src_args k)).load_dest = true)) :
    ∀ (ks : List Nat), (∀ k ∈ ks, k < 4) →
      ∀ s : OrcCompiler, s.insns = c.insns →
      sameExceptLastUse c.vars s.vars →
      (ks.foldl (fun s k => rewriteSrcSlot s j k) s) =
        { s with vars :=
            (ks.map (srcSlotOf c.insns j)).foldl (slotLayer j) s.vars } := by
  intro ks
  induction ks with
  | nil => intro _ s _ _; rfl
  | cons k rest ih =>
    intro hbd s hins hvars
    rw [List.foldl_cons, List.map_cons, List.foldl_cons]
    have hstep := rewriteSrcSlot_eq c s j k hins hvars
      (fun insn hj hsz => hfact k insn (hbd k (List.mem_cons_self k rest))
        hj hsz)
    rw [hstep]
    have hvars2 : sameExceptLastUse c.vars
        (slotLayer j s.vars (srcSlotOf c.insns j k)) :=
      sameExceptLastUse_slotLayer c.vars s.vars hvars j _
    have := ih (fun x hx => hbd x (List.mem_cons_of_mem k hx))
      ({ s with vars := slotLayer j s.vars (srcSlotOf c.insns j k) })
      hins hvars2
    rw [this]

theorem rewriteDest_foldl_eq (c : OrcCompiler) (j : Nat)
    (hfact : ∀ (k : Nat) (insn : OrcInstruction), k < 2 →
      c.insns[j]? = some insn →
      insn.opcode.dest_size k ≠ 0 →
      (c.vars (insn.dest_args k)).used = true ∧
      (c.vars (insn.dest_args k)).replaced = false ∧
      (if insn.opcode.flags &&& ORC_STATIC_OPCODE_ACCUMULATOR ≠ 0 then
        (c.vars (insn.dest_args k)).vartype = .ACCUMULATOR
       else (c.vars (insn.dest_args k)).vartype = .DEST)) :
    ∀ (ks : List Nat), (∀ k ∈ ks, k < 2) →
      ∀ s : OrcCompiler, s.insns = c.insns →
      sameExceptLastUse c.vars s.vars →
      (ks.foldl (fun s k => rewriteDestSlot s j k) s) =
        { s with vars :=
            (ks.map (destSlotOf c.insns j)).foldl (slotLayer j) s.vars }
      := by
  intro ks
  induction ks with
  | nil => intro _ s _ _; rfl
  | cons k rest ih =>
    intro hbd s hins hvars
    rw [List.foldl_cons, List.map_cons, List.foldl_cons]
    have hstep := rewriteDestSlot_eq c s j k hins hvars
      (fun insn hj hsz => hfact k insn (hbd k (List.mem_cons_self k rest))
        hj hsz)
    rw [hstep]
    have hvars2 : sameExceptLastUse c.vars
        (slotLayer j s.vars (destSlotOf c.insns j k)) :=
      sameExceptLastUse_slotLayer c.vars s.vars hvars j _
    have := ih (fun x hx => hbd x (List.mem_cons_of_mem k hx))
      ({ s with vars := slotLayer j s.vars (destSlotOf c.insns j k) })
      hins hvars2
    rw [this]

theorem slots_decompose (c : OrcCompiler) (j : Nat) :
    (List.range 4).map (srcSlotOf c.insns j) ++
      (List.range 2).map (destSlotOf c.insns j) =
    insnSlots (c.insns.getD j ({} : OrcInstruction)) := rfl


theorem lastUseState_vars_succ (c : OrcCompiler) (p x : Nat) :
    (if occursIn (c.insns.getD p ({} : OrcInstruction)) x then
      { (lastUseState c p).vars x with last_use := (p : Int) }
     else (lastUseState c p).vars x) = (lastUseState c (p + 1)).vars x := by
  show (if occursIn (c.insns.getD p ({} : OrcInstruction)) x then
      { (match lastOccBefore c.insns x p with
         | some m => { c.vars x with last_use := (m : Int) }
         | none => c.vars x) with last_use := (p : Int) }
     else (match lastOccBefore c.insns x p with
         | some m => { c.vars x with last_use := (m : Int) }
         | none => c.vars x)) =
    (match lastOccBefore c.insns x (p + 1) with
     | some m => { c.vars x with last_use := (m : Int) }
     | none => c.vars x)
  rw [lastOccBefore_succ]
  by_cases hocc : occursIn (c.insns.getD p ({} : OrcInstruction)) x = true
  · rw [if_pos hocc, if_pos hocc]
    cases lastOccBefore c.insns x p with
    | none => rfl
    | some m => rfl
  · rw [if_neg hocc, if_neg hocc]

theorem rewriteInsn_lastUseState (c : OrcCompiler) (p : Nat)
    (hfactS : ∀ (k : Nat) (insn : OrcInstruction), k < 4 →
      c.insns[p]? = some insn →
      insn.opcode.src_size k ≠ 0 →
      (c.vars (insn.src_args k)).used = true ∧
      (c.vars (insn.src_args k)).replaced = false ∧
      ((c.vars (insn.src_args k)).vartype = .DEST →
        (c.vars (insn.src_args k)).load_dest = true))
    (hfactD : ∀ (k : Nat) (insn : OrcInstruction), k < 2 →
      c.insns[p]? = some insn →
      insn.opcode.dest_size k ≠ 0 →
      (c.vars (insn.dest_args k)).used = true ∧
      (c.vars (insn.dest_args k)).replaced = false ∧
      (if insn.opcode.flags &&& ORC_STATIC_OPCODE_ACCUMULATOR ≠ 0 then
        (c.vars (insn.dest_args k)).vartype = .ACCUMULATOR
       else (c.vars (insn.dest_args k)).vartype = .DEST)) :
    rewriteInsn (lastUseState c p) p = lastUseState c (p + 1) := by
  have hsrc := rewriteSrc_foldl_eq c p hfactS (List.range 4)
    (fun k hk => List.mem_range.mp hk) (lastUseState c p)
    (lastUseState_insns c p) (lastUseState_same c p)
  set W1 := ((List.range 4).map (srcSlotOf c.insns p)).foldl (slotLayer p)
    (lastUseState c p).vars with hW1
  have hvars2 : sameExceptLastUse c.vars W1 := by
    rw [hW1]
    exact sameExceptLastUse_foldl c.vars p _ _ (lastUseState_same c p)
  have hdest := rewriteDest_foldl_eq c p hfactD (List.range 2)
    (fun k hk => List.mem_range.mp hk)
    ({ lastUseState c p with vars := W1 }) (lastUseState_insns c p) hvars2
  rw [rewriteInsn]
  rw [show ORC_STATIC_OPCODE_N_SRC = 4 from rfl,
    show ORC_STATIC_OPCODE_N_DEST = 2 from rfl]
  rw [hsrc, hdest]
  have hcomb : ((List.range 2).map (destSlotOf c.insns p)).foldl
        (slotLayer p) W1 =
      (insnSlots (c.insns.getD p ({} : OrcInstruction))).foldl (slotLayer p)
        (lastUseState c p).vars := by
    rw [hW1, ← List.foldl_append, slots_decompose]
  have hfin : (((List.range 2).map (destSlotOf c.insns p)).foldl
        (slotLayer p) W1) = (lastUseState c (p + 1)).vars := by
    funext x
    rw [hcomb, slotLayer_foldl_apply]
    exact lastUseState_vars_succ c p x
  have hproj : ({ lastUseState c p with vars := W1 } : OrcCompiler).vars
      = W1 := rfl
  rw [hproj, hfin]
  rfl


theorem occursIn_cases (insn : OrcInstruction) (a : Nat)
    (h : occursIn insn a = true) :
    (∃ k, k < 4 ∧ insn.opcode.src_size k ≠ 0 ∧ insn.src_args k = a) ∨
    (∃ k, k < 2 ∧ insn.opcode.dest_size k ≠ 0 ∧ insn.dest_args k = a) := by
  simp only [occursIn, insnSlots, List.any_cons, List.any_nil,
    Bool.or_eq_true, Bool.and_eq_true, bne_iff_ne, ne_eq, beq_iff_eq,
    Bool.or_false] at h
  rcases h with h | h | h | h | h | h
  · exact Or.inl ⟨0, by omega, h.1, h.2⟩
  · exact Or.inl ⟨1, by omega, h.1, h.2⟩
  · exact Or.inl ⟨2, by omega, h.1, h.2⟩
  · exact Or.inl ⟨3, by omega, h.1, h.2⟩
  · exact Or.inr ⟨0, by omega, h.1, h.2⟩
  · exact Or.inr ⟨1, by omega, h.1, h.2⟩

theorem lastUseState_len_eq (c : OrcCompiler)
    (H3 : ∀ j, j < c.insns.length → ∀ k, k < 4 →
      (c.insns.getD j ({} : OrcInstruction)).opcode.src_size k ≠ 0 →
      (c.vars ((c.insns.getD j ({} : OrcInstruction)).src_args k)).last_use
        = ((lastOccBefore c.insns
            ((c.insns.getD j ({} : OrcInstruction)).src_args k)
            c.insns.length).getD 0 : Int))
    (H4 : ∀ j, j < c.insns.length → ∀ k, k < 2 →
      (c.insns.getD j ({} : OrcInstruction)).opcode.dest_size k ≠ 0 →
      (c.vars ((c.insns.getD j ({} : OrcInstruction)).dest_args k)).last_use
        = ((lastOccBefore c.insns
            ((c.insns.getD j ({} : OrcInstruction)).dest_args k)
            c.insns.length).getD 0 : Int)) :
    lastUseState c c.insns.length = c := by
  rw [lastUseState]
  have h : (fun a => match lastOccBefore c.insns a c.insns.length with
      | some m => { c.vars a with last_use := (m : Int) }
      | none => c.vars a) = c.vars := by
    funext a
    cases hlo : lastOccBefore c.insns a c.insns.length with
    | none => rfl
    | some m =>
      obtain ⟨hm, hocc⟩ := lastOccBefore_some c.insns a c.insns.length m hlo
      have hlu : (c.vars a).last_use = (m : Int) := by
        rcases occursIn_cases _ a hocc with ⟨k, hk, hsz, harg⟩ |
            ⟨k, hk, hsz, harg⟩
        · have := H3 m hm k hk hsz
          rw [harg] at this
          rw [this, hlo]
          rfl
        · have := H4 m hm k hk hsz
          rw [harg] at this
          rw [this, hlo]
          rfl
      show ({ c.vars a with last_use := (m : Int) }) = c.vars a
      rw [← hlu]
  rw [h]

theorem rewrite_vars_prefix (c : OrcCompiler)
    (hfactS : ∀ (p k : Nat) (insn : OrcInstruction), k < 4 →
      c.insns[p]? = some insn →
      insn.opcode.src_size k ≠ 0 →
      (c.vars (insn.src_args k)).used = true ∧
      (c.vars (insn.src_args k)).replaced = false ∧
      ((c.vars (insn.src_args k)).vartype = .DEST →
        (c.vars (insn.src_args k)).load_dest = true))
    (hfactD : ∀ (p k : Nat) (insn : OrcInstruction), k < 2 →
      c.insns[p]? = some insn →
      insn.opcode.dest_size k ≠ 0 →
      (c.vars (insn.dest_args k)).used = true ∧
      (c.vars (insn.dest_args k)).replaced = false ∧
      (if insn.opcode.flags &&& ORC_STATIC_OPCODE_ACCUMULATOR ≠ 0 then
        (c.vars (insn.dest_args k)).vartype = .ACCUMULATOR
       else (c.vars (insn.dest_args k)).vartype = .DEST)) :
    ∀ p, (List.range p).foldl rewriteInsn c = lastUseState c p := by
  intro p
  induction p with
  | zero => exact (lastUseState_zero c).symm
  | succ q ih =>
    rw [List.range_succ, List.foldl_append, ih, List.foldl_cons,
      List.foldl_nil]
    exact rewriteInsn_lastUseState c q (hfactS q) (hfactD q)

/-- C7 counterexample: on the two-instruction program that writes the
Temp `t1` twice, the first run of the liveness/rename pass materializes
one duplicate, and running the pass again on its own output materializes
two more (one per Temp definition, because the `used` flags persist), so
the second run is not a no-op. -/
theorem c7_counterexample :
    (orc_compiler_rewrite_vars (orc_compiler_rewrite_vars exTempTwice)).n_dup_vars = 3 ∧
    (orc_compiler_rewrite_vars exTempTwice).n_dup_vars = 1 := by decide

/-- C7 amended: a second run of `rewrite_vars` performs no rewrites — it
is the identity on the whole compiler state — provided no destination
slot holds a Temp: precisely, on states where every variable referenced
by a slot of non-zero declared size is `used` and unreplaced, Dest-kind
sources already carry `load_dest`, destinations are Accumulator-kind
exactly when the opcode is accumulator-flagged and Dest-kind otherwise,
and every referenced variable's `last_use` equals its last occurrence.
The first run establishes these properties for well-typed programs whose
Temps are never redefined; when a used Temp occupies a destination slot
the pass instead allocates a fresh duplicate (see the
counterexample). -/
theorem c7_rewrite_vars_second_run (c : OrcCompiler)
    (H1 : ∀ j, j < c.insns.length → ∀ k, k < 4 →
      (c.insns.getD j ({} : OrcInstruction)).opcode.src_size k ≠ 0 →
      (c.vars ((c.insns.getD j ({} : OrcInstruction)).src_args k)).used
          = true ∧
      (c.vars ((c.insns.getD j ({} : OrcInstruction)).src_args k)).replaced
          = false ∧
      ((c.vars ((c.insns.getD j ({} : OrcInstruction)).src_args k)).vartype
          = .DEST →
        (c.vars ((c.insns.getD j ({} : OrcInstruction)).src_args k)).load_dest = true))
    (H2 : ∀ j, j < c.insns.length → ∀ k, k < 2 →
      (c.insns.getD j ({} : OrcInstruction)).opcode.dest_size k ≠ 0 →
      (c.vars ((c.insns.getD j ({} : OrcInstruction)).dest_args k)).used
          = true ∧
      (c.vars ((c.insns.getD j ({} : OrcInstruction)).dest_args k)).replaced = false ∧
      (if (c.insns.getD j ({} : OrcInstruction)).opcode.flags &&&
          ORC_STATIC_OPCODE_ACCUMULATOR ≠ 0 then
        (c.vars ((c.insns.getD j ({} : OrcInstruction)).dest_args k)).vartype = .ACCUMULATOR
       else
        (c.vars ((c.insns.getD j ({} : OrcInstruction)).dest_args k)).vartype = .DEST))
    (H3 : ∀ j, j < c.insns.length → ∀ k, k < 4 →
      (c.insns.getD j ({} : OrcInstruction)).opcode.src_size k ≠ 0 →
      (c.vars ((c.insns.getD j ({} : OrcInstruction)).src_args k)).last_use
        = ((lastOccBefore c.insns
            ((c.insns.getD j ({} : OrcInstruction)).src_args k)
            c.insns.length).getD 0 : Int))
    (H4 : ∀ j, j < c.insns.length → ∀ k, k < 2 →
      (c.insns.getD j ({} : OrcInstruction)).opcode.dest_size k ≠ 0 →
      (c.vars ((c.insns.getD j ({} : OrcInstruction)).dest_args k)).last_use
        = ((lastOccBefore c.insns
            ((c.insns.getD j ({} : OrcInstruction)).dest_args k)
            c.insns.length).getD 0 : Int)) :
    orc_compiler_rewrite_vars c = c := by
  have hfactS : ∀ (p k : Nat) (insn : OrcInstruction), k < 4 →
      c.insns[p]? = some insn →
      insn.opcode.src_size k ≠ 0 →
      (c.vars (insn.src_args k)).used = true ∧
      (c.vars (insn.src_args k)).replaced = false ∧
      ((c.vars (insn.src_args k)).vartype = .DEST →
        (c.vars (insn.src_args k)).load_dest = true) := by
    intro p k insn hk hp hsz
    have hlt : p < c.insns.length := by
      by_contra hge
      rw [List.getElem?_eq_none (by omega)] at hp
      cases hp
    have hgd : c.insns.getD p ({} : OrcInstruction) = insn := by
      rw [List.getD_eq_getElem?_getD, hp]
      rfl
    have := H1 p hlt k hk (by rw [hgd]; exact hsz)
    rw [hgd] at this
    exact this
  have hfactD : ∀ (p k : Nat) (insn : OrcInstruction), k < 2 →
      c.insns[p]? = some insn →
      insn.opcode.dest_size k ≠ 0 →
      (c.vars (insn.dest_args k)).used = true ∧
      (c.vars (insn.dest_args k)).replaced = false ∧
      (if insn.opcode.flags &&& ORC_STATIC_OPCODE_ACCUMULATOR ≠ 0 then
        (c.vars (insn.dest_args k)).vartype = .ACCUMULATOR
       else (c.vars (insn.dest_args k)).vartype = .DEST) := by
    intro p k insn hk hp hsz
    have hlt : p < c.insns.length := by
      by_contra hge
      rw [List.getElem?_eq_none (by omega)] at hp
      cases hp
    have hgd : c.insns.getD p ({} : OrcInstruction) = insn := by
      rw [List.getD_eq_getElem?_getD, hp]
      rfl
    have := H2 p hlt k hk (by rw [hgd]; exact hsz)
    rw [hgd] at this
    exact this
  rw [orc_compiler_rewrite_vars,
    rewrite_vars_prefix c hfactS hfactD c.insns.length]
  exact lastUseState_len_eq c H3 H4

/-- C7 witness: on the fully-renamed single-instruction program
`copyw D1, S1` the second run of the liveness/rename pass is the
identity. -/
theorem c7_rewrite_vars_second_run_witness :
    orc_compiler_rewrite_vars exSingleCopy = exSingleCopy :=
  c7_rewrite_vars_second_run exSingleCopy (by decide) (by decide)
    (by decide) (by decide)


/-! ## Refcount accounting of `rewrite_vars2` (helper development) -/

/-- Any register returned by a successful window scan satisfies the scan
predicate. -/
theorem allocScan_some_pred (p : Nat → Bool) (off roff : Nat) :
    ∀ n i r, allocScan p off roff i n = some r → p r = true := by
  intro n
  induction n with
  | zero => intro i r h; simp [allocScan] at h
  | succ m ih =>
    intro i r h
    rw [allocScan] at h
    by_cases hp : p (off + (roff + i) % 32) = true
    · simp only [hp, if_true, Option.some.injEq] at h
      rw [← h]; exact hp
    · simp only [hp, if_false] at h; exact ih (i + 1) r h

/-- `orc_compiler_allocate_register` on the vector pool either fails (the
overflow diagnostic, `result = unknown_compile`, return 0) or grants a
register at or above the pool offset whose refcount was 0. -/
theorem allocate_data_spec (c : OrcCompiler) :
    orc_compiler_allocate_register c true =
      (0, { ORC_COMPILER_ERROR c "register overflow for vector reg" with result := OrcCompileResult.UNKNOWN_COMPILE }) ∨
    ∃ k, c.target_data_register_offset ≤ k ∧ c.alloc_regs k = 0 ∧
      orc_compiler_allocate_register c true = allocGrant c k := by
  rcases h1 : allocScan (allocPref c) c.target_data_register_offset 0 0 32
      with _ | reg
  · rcases h2 : allocScan (allocFall c) c.target_data_register_offset 0 0 32
        with _ | reg
    · left
      simp only [orc_compiler_allocate_register, if_true, h1, h2]
      rfl
    · right
      refine ⟨reg, allocScan_some_ge _ _ _ _ _ _ h2, ?_, ?_⟩
      · have hp := allocScan_some_pred _ _ _ _ _ _ h2
        simp only [allocFall, Bool.and_eq_true, beq_iff_eq] at hp
        exact hp.2
      · simp only [orc_compiler_allocate_register, if_true, h1, h2]
  · right
    refine ⟨reg, allocScan_some_ge _ _ _ _ _ _ h1, ?_, ?_⟩
    · have hp := allocScan_some_pred _ _ _ _ _ _ h1
      simp only [allocPref, Bool.and_eq_true, beq_iff_eq] at hp
      exact hp.2
    · simp only [orc_compiler_allocate_register, if_true, h1]

/-- Register allocation never clears a latched error flag. -/
theorem allocate_error_mono (c : OrcCompiler) (d : Bool)
    (h : c.error = true) :
    ((orc_compiler_allocate_register c d).2).error = true := by
  rw [orc_compiler_allocate_register]
  dsimp only []
  repeat' split
  all_goals simp [allocGrant, ORC_COMPILER_ERROR, h]

/-- The chaining step never clears a latched error flag. -/
theorem rv2Chain_error_mono (s : OrcCompiler) (j : Nat)
    (h : s.error = true) : (rv2Chain s j).error = true := by
  rw [rv2Chain]
  rcases hins : s.insns[j]? with _ | insn
  · exact h
  · dsimp only []
    rcases halloc : orc_compiler_allocate_register s true with ⟨k, s1⟩
    have hs1 : s1.error = true := by
      have := allocate_error_mono s true h
      rw [halloc] at this; exact this
    repeat' split
    all_goals simp [setVar, halloc, h, hs1]

/-- The sentinel-clearing step leaves the error flag unchanged. -/
theorem rv2Sentinel_error (s : OrcCompiler) (j : Nat) :
    (rv2Sentinel s j).error = s.error := by
  rw [rv2Sentinel]
  rcases hins : s.insns[j]? with _ | insn
  · rfl
  · dsimp only []
    split
    · rfl
    · rfl

/-- The birth loop never clears a latched error flag. -/
theorem rv2Births_error_mono (s : OrcCompiler) (j : Nat)
    (h : s.error = true) : (rv2Births s j).error = true := by
  rw [rv2Births]
  generalize List.range ORC_N_VARIABLES = L
  induction L generalizing s with
  | nil => exact h
  | cons a L ih =>
    rw [List.foldl_cons]
    apply ih
    dsimp only []
    rcases halloc : orc_compiler_allocate_register s true with ⟨k, s1⟩
    have hs1 : s1.error = true := by
      have := allocate_error_mono s true h
      rw [halloc] at this; exact this
    repeat' split
    all_goals simp [setVar, h, hs1]

/-- The death loop leaves the error flag unchanged. -/
theorem rv2Deaths_error (s : OrcCompiler) (j : Nat) :
    (rv2Deaths s j).error = s.error := by
  rw [rv2Deaths]
  generalize List.range ORC_N_VARIABLES = L
  induction L generalizing s with
  | nil => rfl
  | cons a L ih =>
    rw [List.foldl_cons]
    rw [ih]
    dsimp only []
    repeat' split
    all_goals rfl

/-- One full `rewrite_vars2` instruction step never clears a latched
error flag. -/
theorem rv2Step_error_mono (s : OrcCompiler) (j : Nat)
    (h : s.error = true) : (rv2Step s j).error = true := by
  rw [rv2Step, rv2Deaths_error]
  apply rv2Births_error_mono
  rw [rv2Sentinel_error]
  exact rv2Chain_error_mono s j h

/-- Splitting a `countP` along a disjoint case distinction of its
predicate. -/
theorem countP_split (p q r : Nat → Bool) :
    ∀ L : List Nat,
      (∀ i ∈ L, p i = (q i || r i) ∧ ¬(q i = true ∧ r i = true)) →
      L.countP p = L.countP q + L.countP r := by
  intro L
  induction L with
  | nil => intro _; rfl
  | cons a L ih =>
    intro h
    have ha := h a (List.mem_cons_self a L)
    have hL := ih (fun i hi => h i (List.mem_cons_of_mem a hi))
    rw [List.countP_cons, List.countP_cons, List.countP_cons, hL]
    rcases hq : q a with _ | _ <;> rcases hr : r a with _ | _ <;>
      rw [hq, hr] at ha
    · rw [ha.1]; simp
    · rw [ha.1]; simp; omega
    · rw [ha.1]; simp; omega
    · exact absurd ⟨rfl, rfl⟩ ha.2

/-- How a `countP` changes when the predicate is modified at a single
element of a duplicate-free list. -/
theorem countP_update (p q : Nat → Bool) (x : Nat) :
    ∀ L : List Nat, L.Nodup → x ∈ L → (∀ i ∈ L, i ≠ x → p i = q i) →
      L.countP q + (if p x = true then 1 else 0)
        = L.countP p + (if q x = true then 1 else 0) := by
  intro L
  induction L with
  | nil => intro _ hx; exact absurd hx (List.not_mem_nil x)
  | cons a L ih =>
    intro hnd hx h
    rw [List.nodup_cons] at hnd
    rw [List.countP_cons, List.countP_cons]
    rcases List.mem_cons.mp hx with hax | hxL
    · subst hax
      have hcongr : L.countP p = L.countP q := by
        apply List.countP_congr
        intro i hi
        have hne : i ≠ x := fun he => hnd.1 (he ▸ hi)
        rw [h i (List.mem_cons_of_mem x hi) hne]
      rw [hcongr]
      by_cases hpx : p x = true <;> by_cases hqx : q x = true <;>
        simp [hpx, hqx] <;> omega
    · have hax : a ≠ x := fun he => by
        rw [he] at hnd
        exact hnd.1 hxL
      have hpa : p a = q a := h a (List.mem_cons_self a L) hax
      have hih := ih hnd.2 hxL
        (fun i hi hne => h i (List.mem_cons_of_mem a hi) hne)
      rw [hpa]
      by_cases hpx : p x = true <;> by_cases hqx : q x = true <;>
        simp [hpx, hqx] at hih ⊢ <;> omega



/-- `rv2Births` is the fold of `rv2BirthStep` over the scanned slots. -/
theorem rv2Births_eq (s : OrcCompiler) (j : Nat) :
    rv2Births s j = (List.range ORC_N_VARIABLES).foldl (rv2BirthStep j) s :=
  rfl

/-- `rv2Deaths` is the fold of `rv2DeathStep` over the scanned slots. -/
theorem rv2Deaths_eq (s : OrcCompiler) (j : Nat) :
    rv2Deaths s j = (List.range ORC_N_VARIABLES).foldl (rv2DeathStep j) s :=
  rfl

/-- At the entry of `rewrite_vars2` the accounting invariant holds at
boundary 0. -/
theorem rv2Inv_init (c : OrcCompiler) (hW : rv2W c) : rv2Inv c c 0 := by
  refine ⟨⟨rfl, rfl, fun i => ⟨rfl, rfl, rfl⟩⟩, ?_, ?_⟩
  · intro i hi hname hr
    constructor
    · intro hlt
      exfalso
      have h0 := hr.1
      omega
    · intro _
      exact hr.2.2.2
  · intro r
    have hz : countLiveAt c c 0 r = 0 := by
      rw [countLiveAt, List.countP_eq_zero]
      intro i hi hp
      simp only [Bool.and_eq_true, decide_eq_true_eq, beq_iff_eq] at hp
      rcases hW.2 i (List.mem_range.mp hi) hp.1.1.1 with hin | hine
      · have h0 := hin.1
        have h1 := hp.1.1.2
        omega
      · have h0 := hine.2
        have h1 := hp.1.2
        omega
    rw [hz]
    simp

/-- No variable is live across the boundary after the last instruction. -/
theorem countLiveAt_final (c s : OrcCompiler) (hW : rv2W c) (r : Nat) :
    countLiveAt c s c.insns.length r = 0 := by
  rw [countLiveAt, List.countP_eq_zero]
  intro i hi hp
  simp only [Bool.and_eq_true, decide_eq_true_eq, beq_iff_eq] at hp
  rcases hW.2 i (List.mem_range.mp hi) hp.1.1.1 with hin | hine
  · have h0 := hin.2.2.1
    have h1 := hp.1.2
    omega
  · have h0 := hine.2
    have h1 := hp.1.2
    omega

/-- Under correct born flags no live variable holds register 0. -/
theorem countLiveAt_zero (c s : OrcCompiler) (j : Nat) (hW : rv2W c)
    (hB : rv2BornFlags c s j) : countLiveAt c s j 0 = 0 := by
  rw [countLiveAt, List.countP_eq_zero]
  intro i hi hp
  simp only [Bool.and_eq_true, decide_eq_true_eq, beq_iff_eq] at hp
  rcases hW.2 i (List.mem_range.mp hi) hp.1.1.1 with hin | hine
  · have h2 := (hB i (List.mem_range.mp hi) hp.1.1.1 hin).1 hp.1.1.2
    omega
  · have h0 := hine.2
    have h1 := hp.1.2
    omega

/-- Under correct mid flags no born variable holds register 0. -/
theorem countBornAt_zero (c s : OrcCompiler) (j : Nat) (hW : rv2W c)
    (hM : rv2MidFlags c s j) : countBornAt c s j 0 = 0 := by
  rw [countBornAt, List.countP_eq_zero]
  intro i hi hp
  simp only [Bool.and_eq_true, decide_eq_true_eq, beq_iff_eq] at hp
  rcases hW.2 i (List.mem_range.mp hi) hp.1.1.1 with hin | hine
  · have h2 := (hM i (List.mem_range.mp hi) hp.1.1.1 hin).1 hp.1.1.2
    omega
  · have h0 := hine.2
    have h1 := hp.1.2
    omega

/-- Under correct born flags the born count and the live count agree on
every nonzero register: variables born exactly at the boundary hold no
register yet. -/
theorem countBorn_eq_countLive (c s : OrcCompiler) (j : Nat) (hW : rv2W c)
    (hB : rv2BornFlags c s j) (r : Nat) (hr : 1 ≤ r) :
    countBornAt c s j r = countLiveAt c s j r := by
  rw [countBornAt, countLiveAt]
  apply List.countP_congr
  intro i hi
  simp only [Bool.and_eq_true, decide_eq_true_eq, beq_iff_eq]
  constructor
  · rintro ⟨⟨⟨hn, hle⟩, hlast⟩, halloc⟩
    refine ⟨⟨⟨hn, ?_⟩, hlast⟩, halloc⟩
    rcases lt_or_eq_of_le hle with hlt | heq
    · exact hlt
    · exfalso
      rcases hW.2 i (List.mem_range.mp hi) hn with hin | hine
      · have h2 := (hB i (List.mem_range.mp hi) hn hin).2 (le_of_eq heq.symm)
        omega
      · have h0 := hine.1
        omega
  · rintro ⟨⟨⟨hn, hlt⟩, hlast⟩, halloc⟩
    exact ⟨⟨⟨hn, le_of_lt hlt⟩, hlast⟩, halloc⟩



/-- Full characterization of a death-loop fold over any slot list: the
variables are untouched and each refcount drops by the number of scanned
variables dying at `j` while holding that register. -/
theorem deathsFold_spec (j : Nat) :
    ∀ (L : List Nat) (s : OrcCompiler),
      (L.foldl (rv2DeathStep j) s).vars = s.vars ∧
      (L.foldl (rv2DeathStep j) s).insns = s.insns ∧
      (L.foldl (rv2DeathStep j) s).target_data_register_offset
        = s.target_data_register_offset ∧
      (L.foldl (rv2DeathStep j) s).error = s.error ∧
      ∀ r : Nat, (L.foldl (rv2DeathStep j) s).alloc_regs r =
        s.alloc_regs r - (L.countP (fun i =>
          ((s.vars i).name).isSome && ((s.vars i).last_use == (j : Int))
            && ((s.vars i).alloc == r)) : Int) := by
  intro L
  induction L with
  | nil =>
    intro s
    exact ⟨rfl, rfl, rfl, rfl, fun r => by simp⟩
  | cons a L ih =>
    intro s
    rw [List.foldl_cons]
    by_cases hn : (s.vars a).name = none
    · have hstep : rv2DeathStep j s a = s := by
        rw [rv2DeathStep, if_pos hn]
      rw [hstep]
      obtain ⟨v1, v2, v3, v4, v5⟩ := ih s
      refine ⟨v1, v2, v3, v4, fun r => ?_⟩
      rw [v5 r, List.countP_cons]
      have hpa : (((s.vars a).name).isSome
          && ((s.vars a).last_use == (j : Int))
          && ((s.vars a).alloc == r)) = false := by
        simp [hn]
      rw [hpa]
      simp
    · by_cases hl : (s.vars a).last_use = (j : Int)
      · have hstep : rv2DeathStep j s a = { s with alloc_regs := updf s.alloc_regs ((s.vars a).alloc) (s.alloc_regs ((s.vars a).alloc) - 1) } := by
          rw [rv2DeathStep, if_neg hn, if_pos hl]
        rw [hstep]
        obtain ⟨v1, v2, v3, v4, v5⟩ :=
          ih { s with alloc_regs := updf s.alloc_regs ((s.vars a).alloc) (s.alloc_regs ((s.vars a).alloc) - 1) }
        refine ⟨v1, v2, v3, v4, fun r => ?_⟩
        rw [v5 r, List.countP_cons]
        have hsome : ((s.vars a).name).isSome = true := by
          rcases hh : (s.vars a).name with _ | nm
          · exact absurd hh hn
          · rfl
        by_cases hr : (s.vars a).alloc = r
        · have hpa : (((s.vars a).name).isSome
              && ((s.vars a).last_use == (j : Int))
              && ((s.vars a).alloc == r)) = true := by
            simp [hsome, hl, hr]
          rw [hpa]
          dsimp only []
          rw [updf, if_pos hr.symm, hr]
          simp only [if_true]
          push_cast
          omega
        · have hpa : (((s.vars a).name).isSome
              && ((s.vars a).last_use == (j : Int))
              && ((s.vars a).alloc == r)) = false := by
            simp [hr]
          rw [hpa]
          dsimp only []
          rw [updf, if_neg (fun he => hr he.symm)]
          simp
      · have hstep : rv2DeathStep j s a = s := by
          rw [rv2DeathStep, if_neg hn, if_neg hl]
        rw [hstep]
        obtain ⟨v1, v2, v3, v4, v5⟩ := ih s
        refine ⟨v1, v2, v3, v4, fun r => ?_⟩
        rw [v5 r, List.countP_cons]
        have hpa : (((s.vars a).name).isSome
            && ((s.vars a).last_use == (j : Int))
            && ((s.vars a).alloc == r)) = false := by
          simp [hl]
        rw [hpa]
        simp


/-- A born count splits into the dying holders and the still-live holders:
every scanned variable born at or before `j` and not yet dead either dies
exactly at `j` or is live across the next boundary. -/
theorem deaths_count_split (c s : OrcCompiler) (j : Nat) (hW : rv2W c)
    (hst : rv2Stable c s) (r : Nat) :
    countBornAt c s j r =
      (List.range ORC_N_VARIABLES).countP (fun i =>
        ((s.vars i).name).isSome && ((s.vars i).last_use == (j : Int))
          && ((s.vars i).alloc == r))
      + countLiveAt c s (j + 1) r := by
  rw [countBornAt, countLiveAt]
  apply countP_split
  intro i hi
  have h20 := List.mem_range.mp hi
  have e1 := (hst.2.2 i).1
  have e2 := (hst.2.2 i).2.2
  rw [e1, e2]
  rcases hn : ((c.vars i).name).isSome with _ | _
  · simp [hn]
  · rcases hW.2 i h20 hn with hin | hine
    · unfold varInRange at hin
      obtain ⟨g1, g2, g3, g4⟩ := hin
      by_cases hlast : (c.vars i).last_use = (j : Int)
      · have hD : ((c.vars i).last_use == (j : Int)) = true := by
          simp [hlast]
        have hA : decide ((c.vars i).first_use ≤ (j : Int)) = true :=
          decide_eq_true (by omega)
        have hB : decide ((j : Int) ≤ (c.vars i).last_use) = true :=
          decide_eq_true (by omega)
        have hB2 : decide (((j + 1 : Nat) : Int) ≤ (c.vars i).last_use)
            = false := decide_eq_false (by omega)
        constructor
        · rw [hA, hB, hD, hB2]
          simp [hn]
        · rintro ⟨h1, h2⟩
          rw [hB2] at h2
          simp at h2
      · have hD : ((c.vars i).last_use == (j : Int)) = false := by
          simp [hlast]
        have hAA : decide ((c.vars i).first_use ≤ (j : Int))
            = decide ((c.vars i).first_use < ((j + 1 : Nat) : Int)) := by
          by_cases hA : (c.vars i).first_use ≤ (j : Int)
          · rw [decide_eq_true hA, decide_eq_true
              (show (c.vars i).first_use < ((j + 1 : Nat) : Int) by omega)]
          · rw [decide_eq_false hA, decide_eq_false
              (show ¬(c.vars i).first_use < ((j + 1 : Nat) : Int) by omega)]
        have hBB : decide ((j : Int) ≤ (c.vars i).last_use)
            = decide (((j + 1 : Nat) : Int) ≤ (c.vars i).last_use) := by
          by_cases hB : (j : Int) ≤ (c.vars i).last_use
          · rw [decide_eq_true hB, decide_eq_true
              (show ((j + 1 : Nat) : Int) ≤ (c.vars i).last_use by omega)]
          · rw [decide_eq_false hB, decide_eq_false
              (show ¬((j + 1 : Nat) : Int) ≤ (c.vars i).last_use by omega)]
        constructor
        · rw [hD, hAA, hBB]
          simp
        · rintro ⟨h1, h2⟩
          rw [hD] at h1
          simp at h1
    · have hD : ((c.vars i).last_use == (j : Int)) = false := by
        have h0 := hine.2
        simp only [beq_eq_false_iff_ne, ne_eq]
        omega
      have hB : decide ((j : Int) ≤ (c.vars i).last_use) = false :=
        decide_eq_false (by have h0 := hine.2; omega)
      have hB2 : decide (((j + 1 : Nat) : Int) ≤ (c.vars i).last_use)
          = false := decide_eq_false (by have h0 := hine.2; omega)
      constructor
      · rw [hD, hB, hB2]
        simp
      · rintro ⟨h1, h2⟩
        rw [hD] at h1
        simp at h1

/-- The death loop turns the mid-instruction invariant at `j` into the
boundary invariant at `j + 1`. -/
theorem rv2Deaths_inv (c s : OrcCompiler) (j : Nat) (hW : rv2W c)
    (hM : rv2Mid c s j) : rv2Inv c (rv2Deaths s j) (j + 1) := by
  obtain ⟨hst, hfl, hcnt⟩ := hM
  rw [rv2Deaths_eq]
  obtain ⟨v1, v2, v3, v4, v5⟩ :=
    deathsFold_spec j (List.range ORC_N_VARIABLES) s
  refine ⟨⟨v2.trans hst.1, v3.trans hst.2.1,
    fun i => by rw [v1]; exact hst.2.2 i⟩, ?_, ?_⟩
  · intro i h20 hn hr
    rw [v1]
    have hf := hfl i h20 hn hr
    constructor
    · intro hlt
      exact hf.1 (by omega)
    · intro hge
      exact hf.2 (by omega)
  · intro r
    rw [v5 r]
    have hvv : countLiveAt c
        (List.foldl (rv2DeathStep j) s (List.range ORC_N_VARIABLES))
        (j + 1) r = countLiveAt c s (j + 1) r := by
      rw [countLiveAt, countLiveAt, v1]
    rw [hvv, hcnt r, deaths_count_split c s j hW hst r]
    push_cast
    ring


/-- The sentinel-clearing step preserves the post-chain invariant: a
variable holding register 1 is never an in-range scanned variable (those
hold 0 or a pool register of index at least 2), so clearing it changes no
tracked count. -/
theorem rv2Sentinel_inv (c s : OrcCompiler) (j : Nat) (hW : rv2W c)
    (hPC : rv2PostChain c s j) : rv2PostChain c (rv2Sentinel s j) j := by
  obtain ⟨hst, hfl, hcnt, hc0⟩ := hPC
  rw [rv2Sentinel]
  rcases hins : s.insns[j]? with _ | insn
  · exact ⟨hst, hfl, hcnt, hc0⟩
  · dsimp only []
    by_cases ha : (s.vars (insn.src_args 1)).alloc = 1
    · rw [if_pos ha]
      have hxf : ∀ hn2 : ((c.vars (insn.src_args 1)).name).isSome = true,
          insn.src_args 1 < ORC_N_VARIABLES →
          (j : Int) ≤ (c.vars (insn.src_args 1)).last_use → False := by
        intro hn2 h20 hlast
        rcases hW.2 _ h20 hn2 with hin | hine
        · have hf := hfl _ h20 hn2 hin
          rcases lt_trichotomy ((c.vars (insn.src_args 1)).first_use)
              (j : Int) with h | h | h
          · have h2 := hf.1 h
            omega
          · rcases hf.2.1 h with h2 | h2 <;> omega
          · have h2 := hf.2.2 h
            omega
        · have h0 := hine.2
          omega
      refine ⟨?_, ?_, ?_, ?_⟩
      · refine ⟨hst.1, hst.2.1, fun i => ?_⟩
        rw [setVar_vars]
        by_cases hix : i = insn.src_args 1
        · subst hix
          rw [updf_same]
          exact hst.2.2 _
        · rw [updf_other _ _ _ _ hix]
          exact hst.2.2 i
      · intro i h20 hn hr
        rw [setVar_vars]
        by_cases hix : i = insn.src_args 1
        · exfalso
          subst hix
          have hf := hfl _ h20 hn hr
          rcases lt_trichotomy ((c.vars (insn.src_args 1)).first_use)
              (j : Int) with h | h | h
          · have h2 := hf.1 h
            omega
          · rcases hf.2.1 h with h2 | h2 <;> omega
          · have h2 := hf.2.2 h
            omega
        · rw [updf_other _ _ _ _ hix]
          exact hfl i h20 hn hr
      · intro r hr1
        rw [setVar_alloc_regs, hcnt r hr1]
        have hcb : countBornAt c (setVar s (insn.src_args 1) ({ s.vars (insn.src_args 1) with alloc := 0 })) j r = countBornAt c s j r := by
          rw [countBornAt, countBornAt]
          apply List.countP_congr
          intro i hi
          have h20 := List.mem_range.mp hi
          rw [setVar_vars]
          by_cases hix : i = insn.src_args 1
          · subst hix
            simp only [Bool.and_eq_true, decide_eq_true_eq, beq_iff_eq,
              updf_same]
            constructor
            · rintro ⟨⟨⟨hn2, hle⟩, hlast⟩, hal⟩
              exact absurd hlast (fun hl => hxf hn2 h20 hl)
            · rintro ⟨⟨⟨hn2, hle⟩, hlast⟩, hal⟩
              exact absurd hlast (fun hl => hxf hn2 h20 hl)
          · rw [updf_other _ _ _ _ hix]
        rw [hcb]
      · rw [setVar_alloc_regs]
        exact hc0
    · rw [if_neg ha]
      exact ⟨hst, hfl, hcnt, hc0⟩


/-- Writing the same array slot twice keeps only the second write. -/
theorem updf_updf {α : Type} (f : Nat → α) (i : Nat) (a b : α) :
    updf (updf f i a) i b = updf f i b := by
  funext x
  rw [updf, updf, updf]
  by_cases hx : x = i
  · rw [if_pos hx, if_pos hx]
  · rw [if_neg hx, if_neg hx, if_neg hx]

/-- The boundary invariant implies the post-chain invariant: when the
chaining step does nothing, variables born at `j` simply hold no
register yet. -/
theorem rv2Inv_to_postChain (c s : OrcCompiler) (j : Nat) (hW : rv2W c)
    (hInv : rv2Inv c s j) : rv2PostChain c s j := by
  obtain ⟨hst, hB, hcnt⟩ := hInv
  refine ⟨hst, ?_, ?_, ?_⟩
  · intro i h20 hn hr
    have hf := hB i h20 hn hr
    exact ⟨hf.1, fun heq => Or.inl (hf.2 (le_of_eq heq.symm)),
      fun hgt => hf.2 (le_of_lt hgt)⟩
  · intro r hr1
    rw [hcnt r, countBorn_eq_countLive c s j hW hB r hr1]
  · rw [hcnt 0, countLiveAt_zero c s j hW hB]
    simp


/-- Variant of `countP_update` taking the predicate values at the
modified element as explicit Booleans. -/
theorem countP_update_val (p q : Nat → Bool) (x : Nat) (L : List Nat)
    (hnd : L.Nodup) (hx : x ∈ L) (h : ∀ i ∈ L, i ≠ x → p i = q i)
    (bp bq : Bool) (hbp : p x = bp) (hbq : q x = bq) :
    L.countP q + (if bp = true then 1 else 0)
      = L.countP p + (if bq = true then 1 else 0) := by
  subst hbp
  subst hbq
  exact countP_update p q x L hnd hx h

/-- Effect of a chaining bump on the accounting: the destination (born at
`j`, holding nothing yet) starts holding register `k` (at least 2) and
the refcount of `k` is incremented once, preserving the post-chain
invariant shape. -/
theorem rv2Chain_bump_post (c s F : OrcCompiler) (j dest k : Nat)
    (hW : rv2W c) (hInv : rv2Inv c s j) (hd20 : dest < ORC_N_VARIABLES)
    (hdn : ((c.vars dest).name).isSome = true)
    (hdf : (c.vars dest).first_use = (j : Int)) (hk2 : 2 ≤ k)
    (hFi : F.insns = s.insns)
    (hFo : F.target_data_register_offset = s.target_data_register_offset)
    (hFv : F.vars = updf s.vars dest ({ s.vars dest with alloc := k }))
    (hFa : F.alloc_regs = updf s.alloc_regs k (s.alloc_regs k + 1)) :
    rv2PostChain c F j := by
  obtain ⟨hst, hB, hcnt⟩ := hInv
  have hdin : varInRange (c.vars dest) c.insns.length := by
    rcases hW.2 dest hd20 hdn with hin | hine
    · exact hin
    · exfalso
      have h0 := hine.1
      omega
  have hdal : (s.vars dest).alloc = 0 :=
    (hB dest hd20 hdn hdin).2 (le_of_eq hdf.symm)
  have hdlast : (j : Int) ≤ (c.vars dest).last_use := by
    unfold varInRange at hdin
    have h1 := hdin.2.1
    omega
  refine ⟨⟨hFi.trans hst.1, hFo.trans hst.2.1, fun i => ?_⟩, ?_, ?_, ?_⟩
  · rw [hFv]
    by_cases hid : i = dest
    · subst hid
      rw [updf_same]
      exact hst.2.2 _
    · rw [updf_other _ _ _ _ hid]
      exact hst.2.2 i
  · intro i h20 hn hr
    rw [hFv]
    by_cases hid : i = dest
    · subst hid
      rw [updf_same]
      refine ⟨fun h => ?_, fun h => Or.inr ?_, fun h => ?_⟩
      · exfalso
        omega
      · exact hk2
      · exfalso
        omega
    · rw [updf_other _ _ _ _ hid]
      have hf := hB i h20 hn hr
      exact ⟨hf.1, fun heq => Or.inl (hf.2 (le_of_eq heq.symm)),
        fun hgt => hf.2 (le_of_lt hgt)⟩
  · intro r hr1
    have hptw : ∀ i ∈ List.range ORC_N_VARIABLES, i ≠ dest →
        (((c.vars i).name).isSome
          && decide ((c.vars i).first_use ≤ (j : Int))
          && decide ((j : Int) ≤ (c.vars i).last_use)
          && ((updf s.vars dest ({ s.vars dest with alloc := k }) i).alloc
            == r))
        = (((c.vars i).name).isSome
          && decide ((c.vars i).first_use ≤ (j : Int))
          && decide ((j : Int) ≤ (c.vars i).last_use)
          && ((s.vars i).alloc == r)) := by
      intro i hi hne
      rw [updf_other _ _ _ _ hne]
    have hpd : (((c.vars dest).name).isSome
        && decide ((c.vars dest).first_use ≤ (j : Int))
        && decide ((j : Int) ≤ (c.vars dest).last_use)
        && ((updf s.vars dest ({ s.vars dest with alloc := k }) dest).alloc
          == r)) = (k == r) := by
      rw [updf_same, hdn, decide_eq_true (le_of_eq hdf),
        decide_eq_true hdlast]
      rfl
    have hqd : (((c.vars dest).name).isSome
        && decide ((c.vars dest).first_use ≤ (j : Int))
        && decide ((j : Int) ≤ (c.vars dest).last_use)
        && ((s.vars dest).alloc == r)) = false := by
      rw [hdal]
      have h0 : ((0 : Nat) == r) = false := by
        rw [beq_eq_false_iff_ne]
        omega
      rw [h0, Bool.and_false]
    have hupd := countP_update_val
      (fun i => ((c.vars i).name).isSome
        && decide ((c.vars i).first_use ≤ (j : Int))
        && decide ((j : Int) ≤ (c.vars i).last_use)
        && ((updf s.vars dest ({ s.vars dest with alloc := k }) i).alloc
          == r))
      (fun i => ((c.vars i).name).isSome
        && decide ((c.vars i).first_use ≤ (j : Int))
        && decide ((j : Int) ≤ (c.vars i).last_use)
        && ((s.vars i).alloc == r))
      dest (List.range ORC_N_VARIABLES) (List.nodup_range _)
      (List.mem_range.mpr hd20) hptw (k == r) false hpd hqd
    rw [if_neg Bool.false_ne_true] at hupd
    have hcbF : countBornAt c F j r = (List.range ORC_N_VARIABLES).countP
        (fun i => ((c.vars i).name).isSome
          && decide ((c.vars i).first_use ≤ (j : Int))
          && decide ((j : Int) ≤ (c.vars i).last_use)
          && ((updf s.vars dest ({ s.vars dest with alloc := k }) i).alloc
            == r)) := by
      rw [countBornAt, hFv]
    have hcbS : countBornAt c s j r = (List.range ORC_N_VARIABLES).countP
        (fun i => ((c.vars i).name).isSome
          && decide ((c.vars i).first_use ≤ (j : Int))
          && decide ((j : Int) ≤ (c.vars i).last_use)
          && ((s.vars i).alloc == r)) := by
      rw [countBornAt]
    have hlive := countBorn_eq_countLive c s j hW hB r hr1
    rw [hcbS] at hlive
    rw [hFa, hcbF]
    by_cases hkr : r = k
    · subst hkr
      rw [updf_same]
      rw [if_pos (by rw [beq_iff_eq])] at hupd
      have h2 := hcnt r
      omega
    · rw [updf_other _ _ _ _ hkr]
      rw [if_neg (fun hbe => hkr (beq_iff_eq.mp hbe).symm)] at hupd
      have h2 := hcnt r
      omega
  · rw [hFa, updf_other _ _ _ _ (show (0 : Nat) ≠ k by omega)]
    rw [hcnt 0, countLiveAt_zero c s j hW hB]
    simp


/-- Effect of a fresh chaining allocation on the accounting: the source
(born and dying at `j`) and the destination (born at `j`) both start
holding the freshly granted register `k` and its refcount is incremented
twice, preserving the post-chain invariant shape. -/
theorem rv2Chain_fresh_post (c s F : OrcCompiler) (j src1 dest k : Nat)
    (hW : rv2W c) (hInv : rv2Inv c s j)
    (hs20 : src1 < ORC_N_VARIABLES) (hd20 : dest < ORC_N_VARIABLES)
    (hsd : src1 ≠ dest)
    (hsn : ((c.vars src1).name).isSome = true)
    (hdn : ((c.vars dest).name).isSome = true)
    (hsf : (c.vars src1).first_use = (j : Int))
    (hslu : (c.vars src1).last_use = (j : Int))
    (hdf : (c.vars dest).first_use = (j : Int)) (hk2 : 2 ≤ k)
    (hFi : F.insns = s.insns)
    (hFo : F.target_data_register_offset = s.target_data_register_offset)
    (hFv : F.vars = updf (updf s.vars src1 ({ s.vars src1 with alloc := k })) dest ({ s.vars dest with alloc := k }))
    (hFa : F.alloc_regs = updf s.alloc_regs k (s.alloc_regs k + 1 + 1)) :
    rv2PostChain c F j := by
  obtain ⟨hst, hB, hcnt⟩ := hInv
  have hdin : varInRange (c.vars dest) c.insns.length := by
    rcases hW.2 dest hd20 hdn with hin | hine
    · exact hin
    · exfalso
      have h0 := hine.1
      omega
  have hsin : varInRange (c.vars src1) c.insns.length := by
    rcases hW.2 src1 hs20 hsn with hin | hine
    · exact hin
    · exfalso
      have h0 := hine.1
      omega
  have hdal : (s.vars dest).alloc = 0 :=
    (hB dest hd20 hdn hdin).2 (le_of_eq hdf.symm)
  have hsal : (s.vars src1).alloc = 0 :=
    (hB src1 hs20 hsn hsin).2 (le_of_eq hsf.symm)
  have hdlast : (j : Int) ≤ (c.vars dest).last_use := by
    unfold varInRange at hdin
    have h1 := hdin.2.1
    omega
  have hds : dest ≠ src1 := fun he => hsd he.symm
  refine ⟨⟨hFi.trans hst.1, hFo.trans hst.2.1, fun i => ?_⟩, ?_, ?_, ?_⟩
  · rw [hFv]
    by_cases hid : i = dest
    · subst hid
      rw [updf_same]
      exact hst.2.2 _
    · rw [updf_other _ _ _ _ hid]
      by_cases his : i = src1
      · subst his
        rw [updf_same]
        exact hst.2.2 _
      · rw [updf_other _ _ _ _ his]
        exact hst.2.2 i
  · intro i h20 hn hr
    rw [hFv]
    by_cases hid : i = dest
    · subst hid
      rw [updf_same]
      refine ⟨fun h => ?_, fun h => Or.inr ?_, fun h => ?_⟩
      · exfalso
        omega
      · exact hk2
      · exfalso
        omega
    · rw [updf_other _ _ _ _ hid]
      by_cases his : i = src1
      · subst his
        rw [updf_same]
        refine ⟨fun h => ?_, fun h => Or.inr ?_, fun h => ?_⟩
        · exfalso
          omega
        · exact hk2
        · exfalso
          omega
      · rw [updf_other _ _ _ _ his]
        have hf := hB i h20 hn hr
        exact ⟨hf.1, fun heq => Or.inl (hf.2 (le_of_eq heq.symm)),
          fun hgt => hf.2 (le_of_lt hgt)⟩
  · intro r hr1
    have hptw1 : ∀ i ∈ List.range ORC_N_VARIABLES, i ≠ dest →
        (((c.vars i).name).isSome
          && decide ((c.vars i).first_use ≤ (j : Int))
          && decide ((j : Int) ≤ (c.vars i).last_use)
          && ((updf (updf s.vars src1 ({ s.vars src1 with alloc := k })) dest ({ s.vars dest with alloc := k }) i).alloc == r))
        = (((c.vars i).name).isSome
          && decide ((c.vars i).first_use ≤ (j : Int))
          && decide ((j : Int) ≤ (c.vars i).last_use)
          && ((updf s.vars src1 ({ s.vars src1 with alloc := k }) i).alloc
            == r)) := by
      intro i hi hne
      rw [updf_other _ _ _ _ hne]
    have hpd1 : (((c.vars dest).name).isSome
        && decide ((c.vars dest).first_use ≤ (j : Int))
        && decide ((j : Int) ≤ (c.vars dest).last_use)
        && ((updf (updf s.vars src1 ({ s.vars src1 with alloc := k })) dest ({ s.vars dest with alloc := k }) dest).alloc == r))
        = (k == r) := by
      rw [updf_same, hdn, decide_eq_true (le_of_eq hdf),
        decide_eq_true hdlast]
      rfl
    have hqd1 : (((c.vars dest).name).isSome
        && decide ((c.vars dest).first_use ≤ (j : Int))
        && decide ((j : Int) ≤ (c.vars dest).last_use)
        && ((updf s.vars src1 ({ s.vars src1 with alloc := k }) dest).alloc
          == r)) = false := by
      rw [updf_other _ _ _ _ hds, hdal]
      have h0 : ((0 : Nat) == r) = false := by
        rw [beq_eq_false_iff_ne]
        omega
      rw [h0, Bool.and_false]
    have hupd1 := countP_update_val
      (fun i => ((c.vars i).name).isSome
        && decide ((c.vars i).first_use ≤ (j : Int))
        && decide ((j : Int) ≤ (c.vars i).last_use)
        && ((updf (updf s.vars src1 ({ s.vars src1 with alloc := k })) dest ({ s.vars dest with alloc := k }) i).alloc == r))
      (fun i => ((c.vars i).name).isSome
        && decide ((c.vars i).first_use ≤ (j : Int))
        && decide ((j : Int) ≤ (c.vars i).last_use)
        && ((updf s.vars src1 ({ s.vars src1 with alloc := k }) i).alloc
          == r))
      dest (List.range ORC_N_VARIABLES) (List.nodup_range _)
      (List.mem_range.mpr hd20) hptw1 (k == r) false hpd1 hqd1
    have hptw2 : ∀ i ∈ List.range ORC_N_VARIABLES, i ≠ src1 →
        (((c.vars i).name).isSome
          && decide ((c.vars i).first_use ≤ (j : Int))
          && decide ((j : Int) ≤ (c.vars i).last_use)
          && ((updf s.vars src1 ({ s.vars src1 with alloc := k }) i).alloc
            == r))
        = (((c.vars i).name).isSome
          && decide ((c.vars i).first_use ≤ (j : Int))
          && decide ((j : Int) ≤ (c.vars i).last_use)
          && ((s.vars i).alloc == r)) := by
      intro i hi hne
      rw [updf_other _ _ _ _ hne]
    have hpd2 : (((c.vars src1).name).isSome
        && decide ((c.vars src1).first_use ≤ (j : Int))
        && decide ((j : Int) ≤ (c.vars src1).last_use)
        && ((updf s.vars src1 ({ s.vars src1 with alloc := k }) src1).alloc
          == r)) = (k == r) := by
      rw [updf_same, hsn, decide_eq_true (le_of_eq hsf),
        decide_eq_true (le_of_eq hslu.symm)]
      rfl
    have hqd2 : (((c.vars src1).name).isSome
        && decide ((c.vars src1).first_use ≤ (j : Int))
        && decide ((j : Int) ≤ (c.vars src1).last_use)
        && ((s.vars src1).alloc == r)) = false := by
      rw [hsal]
      have h0 : ((0 : Nat) == r) = false := by
        rw [beq_eq_false_iff_ne]
        omega
      rw [h0, Bool.and_false]
    have hupd2 := countP_update_val
      (fun i => ((c.vars i).name).isSome
        && decide ((c.vars i).first_use ≤ (j : Int))
        && decide ((j : Int) ≤ (c.vars i).last_use)
        && ((updf s.vars src1 ({ s.vars src1 with alloc := k }) i).alloc
          == r))
      (fun i => ((c.vars i).name).isSome
        && decide ((c.vars i).first_use ≤ (j : Int))
        && decide ((j : Int) ≤ (c.vars i).last_use)
        && ((s.vars i).alloc == r))
      src1 (List.range ORC_N_VARIABLES) (List.nodup_range _)
      (List.mem_range.mpr hs20) hptw2 (k == r) false hpd2 hqd2
    rw [if_neg Bool.false_ne_true] at hupd1 hupd2
    have hcbF : countBornAt c F j r = (List.range ORC_N_VARIABLES).countP
        (fun i => ((c.vars i).name).isSome
          && decide ((c.vars i).first_use ≤ (j : Int))
          && decide ((j : Int) ≤ (c.vars i).last_use)
          && ((updf (updf s.vars src1 ({ s.vars src1 with alloc := k })) dest ({ s.vars dest with alloc := k }) i).alloc == r)) := by
      rw [countBornAt, hFv]
    have hcbS : countBornAt c s j r = (List.range ORC_N_VARIABLES).countP
        (fun i => ((c.vars i).name).isSome
          && decide ((c.vars i).first_use ≤ (j : Int))
          && decide ((j : Int) ≤ (c.vars i).last_use)
          && ((s.vars i).alloc == r)) := by
      rw [countBornAt]
    have hlive := countBorn_eq_countLive c s j hW hB r hr1
    rw [hcbS] at hlive
    rw [hFa, hcbF]
    by_cases hkr : r = k
    · subst hkr
      rw [updf_same]
      rw [if_pos (by rw [beq_iff_eq])] at hupd1 hupd2
      have h2 := hcnt r
      omega
    · rw [updf_other _ _ _ _ hkr]
      rw [if_neg (fun hbe => hkr (beq_iff_eq.mp hbe).symm)] at hupd1 hupd2
      have h2 := hcnt r
      omega
  · rw [hFa, updf_other _ _ _ _ (show (0 : Nat) ≠ k by omega)]
    rw [hcnt 0, countLiveAt_zero c s j hW hB]
    simp


/-- The chaining step of `rewrite_vars2` preserves the accounting: under
wellformed chaining operands it either leaves the state alone, bumps the
destination onto the dying source register, or grants a fresh register to
both — in each case establishing the post-chain invariant (unless the
allocation failed, which latches the error flag). -/
theorem rv2Chain_inv (c s : OrcCompiler) (j : Nat) (hW : rv2W c)
    (hCH : rv2CH c j) (hj : j < c.insns.length) (hInv : rv2Inv c s j)
    (hE : (rv2Chain s j).error = false) :
    rv2PostChain c (rv2Chain s j) j := by
  obtain ⟨hst, hB, hcnt⟩ := hInv
  have hins : s.insns[j]? = some (c.insns.getD j ({} : OrcInstruction)) := by
    rw [hst.1, List.getElem?_eq_getElem hj, List.getD_eq_getElem?_getD,
      List.getElem?_eq_getElem hj]
    rfl
  rw [rv2Chain, hins]
  dsimp only []
  by_cases hacc : (c.insns.getD j ({} : OrcInstruction)).opcode.flags &&&
      ORC_STATIC_OPCODE_ACCUMULATOR = 0 ∧
      (c.insns.getD j ({} : OrcInstruction)).opcode.dest_size 1 = 0
  · rw [if_pos hacc]
    by_cases hlu : (s.vars ((c.insns.getD j
        ({} : OrcInstruction)).src_args 0)).last_use = (j : Int)
    · rw [if_pos hlu]
      have hslu : (c.vars ((c.insns.getD j
          ({} : OrcInstruction)).src_args 0)).last_use = (j : Int) := by
        rw [← (hst.2.2 ((c.insns.getD j
          ({} : OrcInstruction)).src_args 0)).2.2]
        exact hlu
      have htr : chainTrigger c j := ⟨hacc.1, hacc.2, hslu⟩
      obtain ⟨hs20, hd20, hsd, hsn, hdn, hdf⟩ := hCH htr
      simp only [chainSrc, chainDest] at hs20 hd20 hsd hsn hdn hdf
      have hds : (c.insns.getD j ({} : OrcInstruction)).dest_args 0 ≠
          (c.insns.getD j ({} : OrcInstruction)).src_args 0 :=
        fun he => hsd he.symm
      have hsin : varInRange
          (c.vars ((c.insns.getD j ({} : OrcInstruction)).src_args 0))
          c.insns.length := by
        rcases hW.2 _ hs20 hsn with hin | hine
        · exact hin
        · exfalso
          have h0 := hine.2
          omega
      by_cases hfu : (s.vars ((c.insns.getD j
          ({} : OrcInstruction)).src_args 0)).first_use = (j : Int)
      · rw [if_pos hfu]
        have hsf : (c.vars ((c.insns.getD j
            ({} : OrcInstruction)).src_args 0)).first_use = (j : Int) := by
          rw [← (hst.2.2 ((c.insns.getD j
            ({} : OrcInstruction)).src_args 0)).2.1]
          exact hfu
        rcases allocate_data_spec s with herr | ⟨k, hk2, hk0, heq⟩
        · exfalso
          have herr2 : (rv2Chain s j).error = true := by
            rw [rv2Chain, hins]
            dsimp only []
            rw [if_pos hacc]
            rw [if_pos hlu, if_pos hfu, herr]
            dsimp only []
            rfl
          rw [herr2] at hE
          exact Bool.noConfusion hE
        · rw [heq]
          dsimp only [allocGrant]
          have hk2n : 2 ≤ k := by
            have h1 := hW.1
            have h2 := hst.2.1
            omega
          apply rv2Chain_fresh_post c s _ j
            ((c.insns.getD j ({} : OrcInstruction)).src_args 0)
            ((c.insns.getD j ({} : OrcInstruction)).dest_args 0) k hW
            ⟨hst, hB, hcnt⟩ hs20 hd20 hsd hsn hdn hsf hslu hdf hk2n
          · rfl
          · rfl
          · dsimp only [setVar_vars, setVar_alloc_regs]
            rw [show (updf s.vars ((c.insns.getD j ({} : OrcInstruction)).src_args 0) ({ s.vars ((c.insns.getD j ({} : OrcInstruction)).src_args 0) with alloc := k }) ((c.insns.getD j ({} : OrcInstruction)).src_args 0)).alloc = k from by rw [updf_same]]
            rw [show updf s.vars ((c.insns.getD j ({} : OrcInstruction)).src_args 0) ({ s.vars ((c.insns.getD j ({} : OrcInstruction)).src_args 0) with alloc := k }) ((c.insns.getD j ({} : OrcInstruction)).dest_args 0) = s.vars ((c.insns.getD j ({} : OrcInstruction)).dest_args 0) from updf_other _ _ _ _ hds]
          · dsimp only [setVar_vars, setVar_alloc_regs]
            rw [show (updf s.vars ((c.insns.getD j ({} : OrcInstruction)).src_args 0) ({ s.vars ((c.insns.getD j ({} : OrcInstruction)).src_args 0) with alloc := k }) ((c.insns.getD j ({} : OrcInstruction)).src_args 0)).alloc = k from by rw [updf_same]]
            rw [updf_updf, updf_same]
      · rw [if_neg hfu]
        have hsfne : (c.vars ((c.insns.getD j
            ({} : OrcInstruction)).src_args 0)).first_use ≠ (j : Int) := by
          rw [← (hst.2.2 ((c.insns.getD j
            ({} : OrcInstruction)).src_args 0)).2.1]
          exact hfu
        have hsfl : (c.vars ((c.insns.getD j
            ({} : OrcInstruction)).src_args 0)).first_use < (j : Int) := by
          unfold varInRange at hsin
          have h1 := hsin.2.1
          omega
        have hk2 : 2 ≤ (s.vars ((c.insns.getD j
            ({} : OrcInstruction)).src_args 0)).alloc :=
          (hB _ hs20 hsn hsin).1 hsfl
        apply rv2Chain_bump_post c s _ j
          ((c.insns.getD j ({} : OrcInstruction)).dest_args 0)
          ((s.vars ((c.insns.getD j ({} : OrcInstruction)).src_args 0)).alloc)
          hW ⟨hst, hB, hcnt⟩ hd20 hdn hdf hk2
        · rfl
        · rfl
        · rfl
        · rfl
    · rw [if_neg hlu]
      exact rv2Inv_to_postChain c s j hW ⟨hst, hB, hcnt⟩
  · rw [if_neg hacc]
    exact rv2Inv_to_postChain c s j hW ⟨hst, hB, hcnt⟩


/-- One birth-loop body step never clears a latched error flag. -/
theorem birthStep_error_mono (j : Nat) (s : OrcCompiler) (i : Nat)
    (h : s.error = true) : (rv2BirthStep j s i).error = true := by
  rw [rv2BirthStep]
  rcases halloc : orc_compiler_allocate_register s true with ⟨k, s1⟩
  have hs1 : s1.error = true := by
    have h2 := allocate_error_mono s true h
    rw [halloc] at h2
    exact h2
  repeat' split
  all_goals simp_all [setVar]

/-- A birth-loop fold never clears a latched error flag. -/
theorem birthsFoldL_error_mono (j : Nat) :
    ∀ (L : List Nat) (s : OrcCompiler), s.error = true →
      (L.foldl (rv2BirthStep j) s).error = true := by
  intro L
  induction L with
  | nil => intro s h; exact h
  | cons a L ih =>
    intro s h
    rw [List.foldl_cons]
    exact ih _ (birthStep_error_mono j s a h)

/-- Effect of one successful birth allocation on the accounting: a
variable born at `j` with no register yet starts holding the granted
register `k` (at least 2) and the refcount of `k` is incremented once,
preserving the post-chain invariant. -/
theorem rv2Birth_grant_post (c s F : OrcCompiler) (j a k : Nat)
    (hW : rv2W c) (hPC : rv2PostChain c s j) (ha20 : a < ORC_N_VARIABLES)
    (hnc : ((c.vars a).name).isSome = true)
    (hafc : (c.vars a).first_use = (j : Int)) (hk2 : 2 ≤ k)
    (hsal : (s.vars a).alloc = 0)
    (hFi : F.insns = s.insns)
    (hFo : F.target_data_register_offset = s.target_data_register_offset)
    (hFv : F.vars = updf s.vars a ({ s.vars a with alloc := k }))
    (hFa : F.alloc_regs = updf s.alloc_regs k (s.alloc_regs k + 1)) :
    rv2PostChain c F j := by
  obtain ⟨hst, hfl, hcnt, hc0⟩ := hPC
  have hain : varInRange (c.vars a) c.insns.length := by
    rcases hW.2 a ha20 hnc with hin | hine
    · exact hin
    · exfalso
      have h0 := hine.1
      omega
  have halast : (j : Int) ≤ (c.vars a).last_use := by
    unfold varInRange at hain
    have h1 := hain.2.1
    omega
  refine ⟨⟨hFi.trans hst.1, hFo.trans hst.2.1, fun i => ?_⟩, ?_, ?_, ?_⟩
  · rw [hFv]
    by_cases hid : i = a
    · subst hid
      rw [updf_same]
      exact hst.2.2 _
    · rw [updf_other _ _ _ _ hid]
      exact hst.2.2 i
  · intro i h20 hn hr
    rw [hFv]
    by_cases hid : i = a
    · subst hid
      rw [updf_same]
      refine ⟨fun h => ?_, fun h => Or.inr ?_, fun h => ?_⟩
      · exfalso
        omega
      · exact hk2
      · exfalso
        omega
    · rw [updf_other _ _ _ _ hid]
      exact hfl i h20 hn hr
  · intro r hr1
    have hptw : ∀ i ∈ List.range ORC_N_VARIABLES, i ≠ a →
        (((c.vars i).name).isSome
          && decide ((c.vars i).first_use ≤ (j : Int))
          && decide ((j : Int) ≤ (c.vars i).last_use)
          && ((updf s.vars a ({ s.vars a with alloc := k }) i).alloc == r))
        = (((c.vars i).name).isSome
          && decide ((c.vars i).first_use ≤ (j : Int))
          && decide ((j : Int) ≤ (c.vars i).last_use)
          && ((s.vars i).alloc == r)) := by
      intro i hi hne
      rw [updf_other _ _ _ _ hne]
    have hpd : (((c.vars a).name).isSome
        && decide ((c.vars a).first_use ≤ (j : Int))
        && decide ((j : Int) ≤ (c.vars a).last_use)
        && ((updf s.vars a ({ s.vars a with alloc := k }) a).alloc == r))
        = (k == r) := by
      rw [updf_same, hnc, decide_eq_true (le_of_eq hafc),
        decide_eq_true halast]
      rfl
    have hqd : (((c.vars a).name).isSome
        && decide ((c.vars a).first_use ≤ (j : Int))
        && decide ((j : Int) ≤ (c.vars a).last_use)
        && ((s.vars a).alloc == r)) = false := by
      rw [hsal]
      have h0 : ((0 : Nat) == r) = false := by
        rw [beq_eq_false_iff_ne]
        omega
      rw [h0, Bool.and_false]
    have hupd := countP_update_val
      (fun i => ((c.vars i).name).isSome
        && decide ((c.vars i).first_use ≤ (j : Int))
        && decide ((j : Int) ≤ (c.vars i).last_use)
        && ((updf s.vars a ({ s.vars a with alloc := k }) i).alloc == r))
      (fun i => ((c.vars i).name).isSome
        && decide ((c.vars i).first_use ≤ (j : Int))
        && decide ((j : Int) ≤ (c.vars i).last_use)
        && ((s.vars i).alloc == r))
      a (List.range ORC_N_VARIABLES) (List.nodup_range _)
      (List.mem_range.mpr ha20) hptw (k == r) false hpd hqd
    rw [if_neg Bool.false_ne_true] at hupd
    have hcbF : countBornAt c F j r = (List.range ORC_N_VARIABLES).countP
        (fun i => ((c.vars i).name).isSome
          && decide ((c.vars i).first_use ≤ (j : Int))
          && decide ((j : Int) ≤ (c.vars i).last_use)
          && ((updf s.vars a ({ s.vars a with alloc := k }) i).alloc
            == r)) := by
      rw [countBornAt, hFv]
    have hcbS : countBornAt c s j r = (List.range ORC_N_VARIABLES).countP
        (fun i => ((c.vars i).name).isSome
          && decide ((c.vars i).first_use ≤ (j : Int))
          && decide ((j : Int) ≤ (c.vars i).last_use)
          && ((s.vars i).alloc == r)) := by
      rw [countBornAt]
    have hcs := hcnt r hr1
    rw [hcbS] at hcs
    rw [hFa, hcbF]
    by_cases hkr : r = k
    · subst hkr
      rw [updf_same]
      rw [if_pos (by rw [beq_iff_eq])] at hupd
      omega
    · rw [updf_other _ _ _ _ hkr]
      rw [if_neg (fun hbe => hkr (beq_iff_eq.mp hbe).symm)] at hupd
      omega
  · rw [hFa, updf_other _ _ _ _ (show (0 : Nat) ≠ k by omega)]
    exact hc0


/-- Induction along the birth loop: unless an allocation fails, the
post-chain invariant is preserved, register holdings of at least 2 are
never lost, and every scanned variable in the processed list that is
named and born at `j` ends up holding a register. -/
theorem birthsFold_inv (c : OrcCompiler) (j : Nat) (hW : rv2W c) :
    ∀ (L : List Nat) (s : OrcCompiler), (∀ i ∈ L, i < ORC_N_VARIABLES) →
      rv2PostChain c s j →
      (L.foldl (rv2BirthStep j) s).error = true ∨
      (rv2PostChain c (L.foldl (rv2BirthStep j) s) j ∧
        (∀ i : Nat, 2 ≤ (s.vars i).alloc →
          2 ≤ ((L.foldl (rv2BirthStep j) s).vars i).alloc) ∧
        ∀ i ∈ L, ((c.vars i).name).isSome = true →
          (c.vars i).first_use = (j : Int) →
          2 ≤ ((L.foldl (rv2BirthStep j) s).vars i).alloc) := by
  intro L
  induction L with
  | nil =>
    intro s hmem hPC
    right
    exact ⟨hPC, fun i h => h, fun i hi => absurd hi (List.not_mem_nil i)⟩
  | cons a L ih =>
    intro s hmem hPC
    obtain ⟨hst, hfl, hcnt, hc0⟩ := hPC
    have ha20 : a < ORC_N_VARIABLES := hmem a (List.mem_cons_self a L)
    have hmemL : ∀ i ∈ L, i < ORC_N_VARIABLES :=
      fun i hi => hmem i (List.mem_cons_of_mem a hi)
    rw [List.foldl_cons]
    by_cases hn : (s.vars a).name = none
    · have hstep : rv2BirthStep j s a = s := by
        rw [rv2BirthStep, if_pos hn]
      rw [hstep]
      rcases ih s hmemL ⟨hst, hfl, hcnt, hc0⟩ with herr | ⟨hPC2, hpres, hall⟩
      · left
        exact herr
      · right
        refine ⟨hPC2, hpres, ?_⟩
        intro i hi hni hfi
        rcases List.mem_cons.mp hi with hia | hiL
        · exfalso
          subst hia
          rw [← (hst.2.2 i).1] at hni
          rw [hn] at hni
          exact Bool.noConfusion hni
        · exact hall i hiL hni hfi
    · have hnc : ((c.vars a).name).isSome = true := by
        rw [← (hst.2.2 a).1]
        exact Option.isSome_iff_ne_none.mpr hn
      by_cases hf : (s.vars a).first_use = (j : Int)
      · have hsfc : (c.vars a).first_use = (j : Int) :=
          ((hst.2.2 a).2.1).symm.trans hf
        by_cases hz : (s.vars a).alloc ≠ 0
        · have hstep : rv2BirthStep j s a = s := by
            rw [rv2BirthStep, if_neg hn, if_pos hf, if_pos hz]
          rw [hstep]
          rcases ih s hmemL ⟨hst, hfl, hcnt, hc0⟩
            with herr | ⟨hPC2, hpres, hall⟩
          · left
            exact herr
          · right
            refine ⟨hPC2, hpres, ?_⟩
            intro i hi hni hfi
            rcases List.mem_cons.mp hi with hia | hiL
            · subst hia
              have hain : varInRange (c.vars i) c.insns.length := by
                rcases hW.2 i ha20 hnc with hin | hine
                · exact hin
                · exfalso
                  have h0 := hine.1
                  omega
              have h2 : 2 ≤ (s.vars i).alloc := by
                rcases (hfl i ha20 hnc hain).2.1 hsfc with h0 | h2
                · exact absurd h0 hz
                · exact h2
              exact hpres i h2
            · exact hall i hiL hni hfi
        · rcases allocate_data_spec s with herr | ⟨k, hk2, hk0, heq⟩
          · left
            apply birthsFoldL_error_mono
            rw [rv2BirthStep, if_neg hn, if_pos hf, if_neg hz, herr]
            dsimp only []
            rfl
          · have hk2n : 2 ≤ k := by
              have h1 := hW.1
              have h2 := hst.2.1
              omega
            have hzal : (s.vars a).alloc = 0 := by omega
            have hstep : rv2BirthStep j s a = setVar { s with alloc_regs := updf s.alloc_regs k (s.alloc_regs k + 1), used_regs := updf s.used_regs k 1 } a ({ s.vars a with alloc := k }) := by
              rw [rv2BirthStep, if_neg hn, if_pos hf, if_neg hz, heq]
              dsimp only [allocGrant]
            have hPC1 : rv2PostChain c (rv2BirthStep j s a) j := by
              rw [hstep]
              exact rv2Birth_grant_post c s _ j a k hW
                ⟨hst, hfl, hcnt, hc0⟩ ha20 hnc hsfc hk2n hzal
                rfl rfl rfl rfl
            rcases ih (rv2BirthStep j s a) hmemL hPC1
              with herr | ⟨hPC2, hpres, hall⟩
            · left
              exact herr
            · right
              refine ⟨hPC2, ?_, ?_⟩
              · intro i h2
                apply hpres
                rw [hstep, setVar_vars]
                by_cases hia : i = a
                · subst hia
                  rw [updf_same]
                  exact hk2n
                · rw [updf_other _ _ _ _ hia]
                  exact h2
              · intro i hi hni hfi
                rcases List.mem_cons.mp hi with hia | hiL
                · subst hia
                  apply hpres
                  rw [hstep, setVar_vars, updf_same]
                  exact hk2n
                · exact hall i hiL hni hfi
      · have hstep : rv2BirthStep j s a = s := by
          rw [rv2BirthStep, if_neg hn, if_neg hf]
        rw [hstep]
        rcases ih s hmemL ⟨hst, hfl, hcnt, hc0⟩
          with herr | ⟨hPC2, hpres, hall⟩
        · left
          exact herr
        · right
          refine ⟨hPC2, hpres, ?_⟩
          intro i hi hni hfi
          rcases List.mem_cons.mp hi with hia | hiL
          · exfalso
            subst hia
            rw [← (hst.2.2 i).2.1] at hfi
            exact hf hfi
          · exact hall i hiL hni hfi

/-- The birth loop turns the post-chain invariant at `j` into the
mid-instruction invariant, unless an allocation fails. -/
theorem rv2Births_inv (c s : OrcCompiler) (j : Nat) (hW : rv2W c)
    (hPC : rv2PostChain c s j)
    (hE : (rv2Births s j).error = false) : rv2Mid c (rv2Births s j) j := by
  rw [rv2Births_eq] at hE ⊢
  rcases birthsFold_inv c j hW (List.range ORC_N_VARIABLES) s
      (fun i hi => List.mem_range.mp hi) hPC
    with herr | ⟨hPC2, hpres, hall⟩
  · rw [herr] at hE
    exact Bool.noConfusion hE
  · obtain ⟨hst2, hfl2, hcnt2, hc02⟩ := hPC2
    have hmfl : rv2MidFlags c
        ((List.range ORC_N_VARIABLES).foldl (rv2BirthStep j) s) j := by
      intro i h20 hn hr
      constructor
      · intro hle
        rcases lt_or_eq_of_le hle with hlt | heq2
        · exact (hfl2 i h20 hn hr).1 hlt
        · exact hall i (List.mem_range.mpr h20) hn heq2
      · intro hgt
        exact (hfl2 i h20 hn hr).2.2 hgt
    refine ⟨hst2, hmfl, ?_⟩
    intro r
    rcases Nat.eq_zero_or_pos r with hr0 | hr1
    · subst hr0
      rw [hc02, countBornAt_zero c _ j hW hmfl]
      simp
    · exact hcnt2 r hr1


/-- One full instruction of `rewrite_vars2` carries the boundary
accounting invariant from `j` to `j + 1`, unless an allocation fails. -/
theorem rv2Step_inv (c s : OrcCompiler) (j : Nat) (hW : rv2W c)
    (hCH : rv2CH c j) (hj : j < c.insns.length) (hInv : rv2Inv c s j) :
    (rv2Step s j).error = true ∨ rv2Inv c (rv2Step s j) (j + 1) := by
  by_cases hE : (rv2Step s j).error = true
  · left
    exact hE
  · right
    have hEf : (rv2Step s j).error = false := by
      rcases hx : (rv2Step s j).error with _ | _
      · rfl
      · exact absurd hx hE
    have hE3 : (rv2Births (rv2Sentinel (rv2Chain s j) j) j).error
        = false := by
      rw [rv2Step, rv2Deaths_error] at hEf
      exact hEf
    have hE1 : (rv2Chain s j).error = false := by
      rcases hx : (rv2Chain s j).error with _ | _
      · rfl
      · exfalso
        have h2 : (rv2Sentinel (rv2Chain s j) j).error = true := by
          rw [rv2Sentinel_error]
          exact hx
        have h3 := rv2Births_error_mono _ j h2
        rw [hE3] at h3
        exact Bool.noConfusion h3
    have hPC1 := rv2Chain_inv c s j hW hCH hj hInv hE1
    have hPC2 := rv2Sentinel_inv c _ j hW hPC1
    have hMid := rv2Births_inv c _ j hW hPC2 hE3
    have hInv2 := rv2Deaths_inv c _ j hW hMid
    exact hInv2

/-- The boundary accounting invariant holds after any prefix of the
`rewrite_vars2` instruction loop, unless an allocation failed. -/
theorem rv2_fold_inv (c : OrcCompiler) (hW : rv2W c)
    (hCH : ∀ j, j < c.insns.length → rv2CH c j) :
    ∀ m, m ≤ c.insns.length →
      ((List.range m).foldl rv2Step c).error = true ∨
      rv2Inv c ((List.range m).foldl rv2Step c) m := by
  intro m
  induction m with
  | zero =>
    intro _
    right
    exact rv2Inv_init c hW
  | succ m ih =>
    intro hm
    rw [List.range_succ, List.foldl_append, List.foldl_cons,
      List.foldl_nil]
    rcases ih (Nat.le_of_succ_le hm) with herr | hInv
    · left
      exact rv2Step_error_mono _ m herr
    · rcases rv2Step_inv c _ m hW (hCH m (Nat.lt_of_succ_le hm))
        (Nat.lt_of_succ_le hm) hInv with herr2 | hInv2
      · left
        exact herr2
      · right
        exact hInv2


/-- C4 counterexample: on the two-instruction program
`copyw D1, S1; copyw D1, S2` (destination written twice, which the
disabled duplicate-dest check lets through), `rewrite_vars2` finishes
without error yet leaves `alloc_regs[64] = 1`: the chaining bump for the
first instruction hands register 64 to D1, the second instruction's
chaining overwrites `D1.alloc` with S2's register before D1's death can
release 64, so that refcount is never decremented.  This refutes the
claim that `alloc_regs[r] == 0` for every `r` after an error-free
pass. -/
theorem c4_counterexample :
    (orc_compiler_rewrite_vars2 exDoubleWrite).error = false ∧
    (orc_compiler_rewrite_vars2 exDoubleWrite).alloc_regs 64 ≠ 0 := by
  decide

/-- C4 (amended): if the pool offset is at least 2, every named scanned
variable starts with an in-program liveness interval and no register (or
is inert), and every instruction that triggers chaining has distinct
named scanned operands whose destination is born exactly at that
instruction (no destination written more than once), then an error-free
run of `rewrite_vars2` returns every `alloc_regs[r]` to its entry value:
each refcount increment from births and from the chaining bump is
matched by a decrement at the holder's last use.  The entry values need
not be zero — registers allocated by `global_reg_alloc` keep their
counts. -/
theorem c4_rewrite_vars2_balance (c : OrcCompiler) (hW : rv2W c)
    (hCH : ∀ j, j < c.insns.length → rv2CH c j)
    (hE : (orc_compiler_rewrite_vars2 c).error = false) :
    ∀ r : Nat, (orc_compiler_rewrite_vars2 c).alloc_regs r
      = c.alloc_regs r := by
  intro r
  rcases rv2_fold_inv c hW hCH c.insns.length (le_refl _)
    with herr | hInv
  · rw [orc_compiler_rewrite_vars2] at hE
    rw [herr] at hE
    exact Bool.noConfusion hE
  · obtain ⟨hst, hB, hcnt⟩ := hInv
    rw [orc_compiler_rewrite_vars2, hcnt r, countLiveAt_final c _ hW r]
    simp

/-- C4 witness: the single-instruction program `copyw D1, S1` satisfies
the wellformedness hypotheses, runs without error, and its vector
register 64 ends with its entry refcount. -/
theorem c4_rewrite_vars2_balance_witness :
    (orc_compiler_rewrite_vars2 exSingleCopy).alloc_regs 64
      = exSingleCopy.alloc_regs 64 :=
  c4_rewrite_vars2_balance exSingleCopy
    (by unfold rv2W varInRange varInert; decide)
    (by unfold rv2CH chainTrigger chainSrc chainDest; decide)
    (by decide) 64

end Orc
